import Mathlib

/-!
GitHub webhook → Discord bridge (`main.go`).

A shallow embedding of the request dispatcher (`handleWebhook`), the event
translator (`convertToDiscord` and its per-kind handlers), the field accessors
(`getStr`, `getFloat`) and the forwarder (`sendToDiscord`), followed by the
properties established about them.

Conventions of the embedding:

* A Go `string` is an immutable sequence of bytes; `len` counts bytes and
  `s[:n]`, `s[n:]` slice bytes.  It is embedded as `List UInt8`.
* A decoded JSON value (`interface{}` as produced by `encoding/json`) is a
  `JVal`; a Go `map[string]interface{}` is an association list read with
  `mapIndex`, which yields `JVal.null` (Go `nil`) for a missing key.
* A failed type assertion `x.(T)` panics; a handler that panics yields `none`.
* Library calls (`json.Unmarshal`, `json.Marshal`, `http.Post`) are fields of
  a `World` value.
-/

set_option maxRecDepth 100000

namespace GithubWebhookDiscord

/-! ## Strings -/

/-- A Go string: a sequence of bytes. -/
abbrev GoString := List UInt8

/-- The bytes of a Go string literal: the UTF-8 encoding of its text. -/
def lit (s : String) : GoString := s.data.flatMap String.utf8EncodeChar

/-- Go `fmt.Sprintf("%d", n)` for an integer. -/
def fmtInt (n : Int) : GoString := lit (toString n)

/-! ## Decoded JSON -/

/-- A value decoded by `encoding/json` into `interface{}`: `nil`, `bool`,
`float64`, `string`, `[]interface{}` or `map[string]interface{}`.  The finite
`float64` of a number is held as the rational it denotes. -/
inductive JVal where
  | null : JVal
  | bool (b : Bool) : JVal
  | num (f : Rat) : JVal
  | str (s : GoString) : JVal
  | arr (xs : List JVal) : JVal
  | obj (m : List (GoString × JVal)) : JVal

/-- A Go `map[string]interface{}`. -/
abbrev JObj := List (GoString × JVal)

/-- Go map indexing `m[key]`: the stored value, or `nil` when the key is absent. -/
def mapIndex (m : JObj) (key : GoString) : JVal :=
  match m.lookup key with
  | some v => v
  | none => JVal.null

/-- Go conversion `int(f)` of a `float64` to the 64-bit `int`: truncation toward
zero when the truncated value fits `int64`.  Outside that range the language
leaves the result implementation-dependent; the value taken here is the one
amd64 produces, the least `int64`.  Statements about a converted number are
made for numbers inside the range only. -/
def goInt (f : Rat) : Int :=
  let t := f.num.tdiv f.den
  if -9223372036854775808 ≤ t ∧ t ≤ 9223372036854775807 then t
  else -9223372036854775808

/-- The loop of `getStr`: walk the keys, then read a string. -/
def getStrFrom : JVal → List GoString → GoString
  | JVal.str s, [] => s
  | _, [] => []
  | JVal.obj m, key :: rest => getStrFrom (mapIndex m key) rest
  | _, _ :: _ => []

/-- `getStr(data, keys...)`. -/
def getStr (data : JObj) (keys : List GoString) : GoString :=
  getStrFrom (JVal.obj data) keys

/-- The loop of `getFloat`: walk the keys, then read a number. -/
def getFloatFrom : JVal → List GoString → Rat
  | JVal.num f, [] => f
  | _, [] => 0
  | JVal.obj m, key :: rest => getFloatFrom (mapIndex m key) rest
  | _, _ :: _ => 0

/-- `getFloat(data, keys...)`. -/
def getFloat (data : JObj) (keys : List GoString) : Rat :=
  getFloatFrom (JVal.obj data) keys

/-! ## Outbound message -/

/-- The `map[string]string` stored under the embed key `"author"`. -/
structure Author where
  name : GoString
  url : GoString
  icon_url : GoString
deriving DecidableEq

/-- The embed map `map[string]interface{}` built by the handlers; a field is
`none` while its key is absent from the map. -/
structure Embed where
  color : Option Nat
  author : Option Author
  title : Option GoString
  url : Option GoString
  description : Option GoString
deriving DecidableEq

/-- `make(map[string]interface{})`. -/
def Embed.empty : Embed := ⟨none, none, none, none, none⟩

/-- The struct `DiscordMessage`. -/
structure DiscordMessage where
  content : GoString
  embeds : List Embed
deriving DecidableEq

/-! ## Event translator -/

/-- Lines 189–192 of `handlePushEvent`: the branch shown in the title. -/
def pushBranch (ref : GoString) : GoString :=
  if ref.length > 11 ∧ ref.take 11 = lit "refs/heads/" then ref.drop 11 else ref

/-- Lines 221–224 of `handlePushEvent`: the shortened commit id. -/
def pushSha (c : JObj) : GoString :=
  let sha := getStr c [lit "id"]
  if sha.length > 7 then sha.take 7 else sha

/-- Lines 220–227 of `handlePushEvent`: the text appended for one commit object. -/
def pushLine (c : JObj) : GoString :=
  let sha := pushSha c
  let msg := getStr c [lit "message"]
  let author := getStr c [lit "author", lit "name"]
  lit "`" ++ sha ++ lit "` " ++ msg ++ lit " - " ++ author ++ lit "\n"

/-- The `for i, commit := range commits` loop of `handlePushEvent`
(lines 216–228), from index `i` with the description built so far; `none` when
the assertion `commit.(map[string]interface{})` panics. -/
def pushLoop : List JVal → Nat → GoString → Option GoString
  | [], _, description => some description
  | commit :: rest, i, description =>
    if i ≥ 5 then some description
    else
      match commit with
      | JVal.obj c => pushLoop rest (i + 1) (description ++ pushLine c)
      | _ => none

/-- `handlePushEvent`. -/
def handlePushEvent (embed : Embed) (payload : JObj) : Option Embed :=
  let embed := { embed with color := some 0x7289DA }
  let ref := getStr payload [lit "ref"]
  let repo := getStr payload [lit "repository", lit "full_name"]
  let compareURL := getStr payload [lit "compare"]
  let pusher := getStr payload [lit "pusher", lit "name"]
  let pusherURL := lit "https://github.com/" ++ pusher
  let pusherAvatar := getStr payload [lit "sender", lit "avatar_url"]
  let branch := pushBranch ref
  let commitText : GoString :=
    match mapIndex payload (lit "commits") with
    | JVal.arr commits =>
      if commits.length = 1 then lit "1 new commit"
      else fmtInt commits.length ++ lit " new commits"
    | _ => lit ""
  let embed := { embed with author := some ⟨pusher, pusherURL, pusherAvatar⟩ }
  let embed := { embed with
    title := some (lit "[" ++ repo ++ lit ":" ++ branch ++ lit "] " ++ commitText) }
  let embed := { embed with url := some compareURL }
  match mapIndex payload (lit "commits") with
  | JVal.arr commits =>
    if commits.length > 0 then
      match pushLoop commits 0 (lit "") with
      | none => none
      | some description =>
        let description :=
          if commits.length > 5 then
            description ++ lit "... and " ++ fmtInt ((commits.length : Int) - 5)
              ++ lit " more commits"
          else description
        some { embed with description := some description }
    else some embed
  | _ => some embed

/-- `handlePullRequestEvent`. -/
def handlePullRequestEvent (embed : Embed) (payload : JObj) : Option Embed :=
  let action := getStr payload [lit "action"]
  let embed :=
    if action = lit "opened" ∨ action = lit "reopened" then
      { embed with color := some 0x28A745 }
    else if action = lit "closed" then { embed with color := some 0x6E7681 }
    else { embed with color := some 0xFF69B4 }
  match mapIndex payload (lit "pull_request") with
  | JVal.obj pr =>
    let number := goInt (getFloat pr [lit "number"])
    let title := getStr pr [lit "title"]
    let url := getStr pr [lit "html_url"]
    let user := getStr pr [lit "user", lit "login"]
    let userURL := getStr pr [lit "user", lit "html_url"]
    let userAvatar := getStr pr [lit "user", lit "avatar_url"]
    let repo := getStr payload [lit "repository", lit "full_name"]
    some { embed with
      author := some ⟨user, userURL, userAvatar⟩
      title := some (lit "[" ++ repo ++ lit "] Pull request #" ++ fmtInt number
        ++ lit " " ++ action ++ lit ": " ++ title)
      url := some url }
  | _ => none

/-- `handleIssuesEvent`. -/
def handleIssuesEvent (embed : Embed) (payload : JObj) : Option Embed :=
  let embed := { embed with color := some 0xDC143C }
  let action := getStr payload [lit "action"]
  match mapIndex payload (lit "issue") with
  | JVal.obj issue =>
    let number := goInt (getFloat issue [lit "number"])
    let title := getStr issue [lit "title"]
    let url := getStr issue [lit "html_url"]
    let user := getStr issue [lit "user", lit "login"]
    let userURL := getStr issue [lit "user", lit "html_url"]
    let userAvatar := getStr issue [lit "user", lit "avatar_url"]
    let repo := getStr payload [lit "repository", lit "full_name"]
    some { embed with
      author := some ⟨user, userURL, userAvatar⟩
      title := some (lit "[" ++ repo ++ lit "] Issue #" ++ fmtInt number
        ++ lit " " ++ action ++ lit ": " ++ title)
      url := some url }
  | _ => none

/-- The statement `if len(body) > 200 { body = body[:200] + "..." }` shared by
the comment and review handlers. -/
def truncateBody (body : GoString) : GoString :=
  if body.length > 200 then body.take 200 ++ lit "..." else body

/-- `handleIssueCommentEvent`. -/
def handleIssueCommentEvent (embed : Embed) (payload : JObj) : Option Embed :=
  let embed := { embed with color := some 0xFF69B4 }
  match mapIndex payload (lit "issue") with
  | JVal.obj issue =>
    match mapIndex payload (lit "comment") with
    | JVal.obj comment =>
      let number := goInt (getFloat issue [lit "number"])
      let title := getStr issue [lit "title"]
      let url := getStr comment [lit "html_url"]
      let user := getStr comment [lit "user", lit "login"]
      let userURL := getStr comment [lit "user", lit "html_url"]
      let userAvatar := getStr comment [lit "user", lit "avatar_url"]
      let repo := getStr payload [lit "repository", lit "full_name"]
      let body := getStr comment [lit "body"]
      some { embed with
        author := some ⟨user, userURL, userAvatar⟩
        title := some (lit "[" ++ repo ++ lit "] New comment on issue #"
          ++ fmtInt number ++ lit ": " ++ title)
        url := some url
        description := some (truncateBody body) }
    | _ => none
  | _ => none

/-- `handlePRReviewCommentEvent`. -/
def handlePRReviewCommentEvent (embed : Embed) (payload : JObj) : Option Embed :=
  let embed := { embed with color := some 0xFFFFFF }
  match mapIndex payload (lit "pull_request") with
  | JVal.obj pr =>
    match mapIndex payload (lit "comment") with
    | JVal.obj comment =>
      let number := goInt (getFloat pr [lit "number"])
      let title := getStr pr [lit "title"]
      let url := getStr comment [lit "html_url"]
      let user := getStr comment [lit "user", lit "login"]
      let userURL := getStr comment [lit "user", lit "html_url"]
      let userAvatar := getStr comment [lit "user", lit "avatar_url"]
      let repo := getStr payload [lit "repository", lit "full_name"]
      let body := getStr comment [lit "body"]
      some { embed with
        author := some ⟨user, userURL, userAvatar⟩
        title := some (lit "[" ++ repo ++ lit "] New comment on pull request #"
          ++ fmtInt number ++ lit ": " ++ title)
        url := some url
        description := some (truncateBody body) }
    | _ => none
  | _ => none

/-- `handlePRReviewEvent`. -/
def handlePRReviewEvent (embed : Embed) (payload : JObj) : Option Embed :=
  let embed := { embed with color := some 0x90EE90 }
  match mapIndex payload (lit "pull_request") with
  | JVal.obj pr =>
    match mapIndex payload (lit "review") with
    | JVal.obj review =>
      let number := goInt (getFloat pr [lit "number"])
      let title := getStr pr [lit "title"]
      let url := getStr review [lit "html_url"]
      let user := getStr review [lit "user", lit "login"]
      let userURL := getStr review [lit "user", lit "html_url"]
      let userAvatar := getStr review [lit "user", lit "avatar_url"]
      let repo := getStr payload [lit "repository", lit "full_name"]
      let state := getStr review [lit "state"]
      let body := getStr review [lit "body"]
      let embed := { embed with
        author := some ⟨user, userURL, userAvatar⟩
        title := some (lit "[" ++ repo ++ lit "] Pull request review " ++ state
          ++ lit " on #" ++ fmtInt number ++ lit ": " ++ title)
        url := some url }
      if body ≠ lit "" then some { embed with description := some (truncateBody body) }
      else some embed
    | _ => none
  | _ => none

/-- `handleStarEvent`. -/
def handleStarEvent (embed : Embed) (payload : JObj) : Option Embed :=
  let action := getStr payload [lit "action"]
  let repo := getStr payload [lit "repository", lit "full_name"]
  let repoURL := getStr payload [lit "repository", lit "html_url"]
  let user := getStr payload [lit "sender", lit "login"]
  let userURL := getStr payload [lit "sender", lit "html_url"]
  let userAvatar := getStr payload [lit "sender", lit "avatar_url"]
  let embed := { embed with author := some ⟨user, userURL, userAvatar⟩ }
  let embed :=
    if action = lit "created" then
      { embed with title := some (lit "[" ++ repo ++ lit "] New star") }
    else { embed with title := some (lit "[" ++ repo ++ lit "] Star removed") }
  some { embed with url := some repoURL }

/-- `handleForkEvent`. -/
def handleForkEvent (embed : Embed) (payload : JObj) : Option Embed :=
  let repo := getStr payload [lit "repository", lit "full_name"]
  let user := getStr payload [lit "sender", lit "login"]
  let userURL := getStr payload [lit "sender", lit "html_url"]
  let userAvatar := getStr payload [lit "sender", lit "avatar_url"]
  match mapIndex payload (lit "forkee") with
  | JVal.obj forkee =>
    let forkURL := getStr forkee [lit "html_url"]
    some { embed with
      author := some ⟨user, userURL, userAvatar⟩
      title := some (lit "[" ++ repo ++ lit "] Forked")
      url := some forkURL
      description := some (lit "Fork: " ++ forkURL) }
  | _ => none

/-- `handleCreateEvent`. -/
def handleCreateEvent (embed : Embed) (payload : JObj) : Option Embed :=
  let refType := getStr payload [lit "ref_type"]
  let ref := getStr payload [lit "ref"]
  let repo := getStr payload [lit "repository", lit "full_name"]
  let repoURL := getStr payload [lit "repository", lit "html_url"]
  let user := getStr payload [lit "sender", lit "login"]
  let userURL := getStr payload [lit "sender", lit "html_url"]
  let userAvatar := getStr payload [lit "sender", lit "avatar_url"]
  some { embed with
    author := some ⟨user, userURL, userAvatar⟩
    title := some (lit "[" ++ repo ++ lit "] Created " ++ refType ++ lit ": " ++ ref)
    url := some repoURL }

/-- `handleDeleteEvent`. -/
def handleDeleteEvent (embed : Embed) (payload : JObj) : Option Embed :=
  let refType := getStr payload [lit "ref_type"]
  let ref := getStr payload [lit "ref"]
  let repo := getStr payload [lit "repository", lit "full_name"]
  let repoURL := getStr payload [lit "repository", lit "html_url"]
  let user := getStr payload [lit "sender", lit "login"]
  let userURL := getStr payload [lit "sender", lit "html_url"]
  let userAvatar := getStr payload [lit "sender", lit "avatar_url"]
  some { embed with
    author := some ⟨user, userURL, userAvatar⟩
    title := some (lit "[" ++ repo ++ lit "] Deleted " ++ refType ++ lit ": " ++ ref)
    url := some repoURL }

/-- `handleDefaultEvent`. -/
def handleDefaultEvent (embed : Embed) (event : GoString) (payload : JObj) :
    Option Embed :=
  let repo := getStr payload [lit "repository", lit "full_name"]
  let repoURL := getStr payload [lit "repository", lit "html_url"]
  let user := getStr payload [lit "sender", lit "login"]
  let userURL := getStr payload [lit "sender", lit "html_url"]
  let userAvatar := getStr payload [lit "sender", lit "avatar_url"]
  some { embed with
    author := some ⟨user, userURL, userAvatar⟩
    title := some (lit "[" ++ repo ++ lit "] " ++ event ++ lit " event")
    url := some repoURL }

/-- The `switch event` of `convertToDiscord`: the handler run on the fresh
embed map. -/
def dispatch (event : GoString) (embed : Embed) (payload : JObj) : Option Embed :=
  if event = lit "push" then handlePushEvent embed payload
  else if event = lit "pull_request" then handlePullRequestEvent embed payload
  else if event = lit "issues" then handleIssuesEvent embed payload
  else if event = lit "issue_comment" then handleIssueCommentEvent embed payload
  else if event = lit "pull_request_review_comment" then
    handlePRReviewCommentEvent embed payload
  else if event = lit "pull_request_review" then handlePRReviewEvent embed payload
  else if event = lit "star" then handleStarEvent embed payload
  else if event = lit "fork" then handleForkEvent embed payload
  else if event = lit "create" then handleCreateEvent embed payload
  else if event = lit "delete" then handleDeleteEvent embed payload
  else handleDefaultEvent embed event payload

/-- `convertToDiscord`: `none` when the handler panics, otherwise the message
holding the one embed. -/
def convertToDiscord (event : GoString) (payload : JObj) : Option DiscordMessage :=
  match dispatch event Embed.empty payload with
  | none => none
  | some embed => some { content := lit "", embeds := [embed] }

/-! ## Forwarder and request dispatcher -/

/-- What `http.Post` returns: an error, or a response whose body
`io.ReadAll(resp.Body)` then reads. -/
inductive PostResult where
  | failed (err : GoString) : PostResult
  | response (statusCode : Int) (body : GoString) : PostResult

/-- The surroundings of a request: the configured `config.Discord.WebhookURL`
and the library calls the program makes. -/
structure World where
  webhookURL : GoString
  jsonUnmarshal : GoString → Except GoString JObj
  jsonMarshal : DiscordMessage → Except GoString GoString
  httpPost : GoString → GoString → GoString → PostResult

/-- `sendToDiscord`: the returned `error`, as its message, or `none` for `nil`. -/
def sendToDiscord (w : World) (msg : DiscordMessage) : Option GoString :=
  match w.jsonMarshal msg with
  | Except.error err => some (lit "marshal error: " ++ err)
  | Except.ok jsonData =>
    match w.httpPost w.webhookURL (lit "application/json") jsonData with
    | PostResult.failed err => some (lit "request error: " ++ err)
    | PostResult.response statusCode body =>
      if statusCode < 200 ∨ statusCode ≥ 300 then
        some (lit "discord returned " ++ fmtInt statusCode ++ lit ": " ++ body)
      else none

/-- An inbound request as `handleWebhook` reads it: `r.Method`, the headers
`X-GitHub-Event` and `X-GitHub-Delivery` (`""` when missing) and the outcome of
`io.ReadAll(r.Body)` (`none` when the read returns an error). -/
structure Request where
  method : GoString
  event : GoString
  delivery : GoString
  body : Option GoString

/-- The status and body written to the `http.ResponseWriter`. -/
structure Response where
  status : Nat
  body : GoString
deriving DecidableEq

/-- `http.Error(w, msg, code)`: the status with the message and a newline. -/
def httpError (msg : GoString) (code : Nat) : Response :=
  ⟨code, msg ++ lit "\n"⟩

/-- A call made by `handleWebhook` to the translator or to the forwarder. -/
inductive Call where
  | convertToDiscord (event : GoString) (payload : JObj) : Call
  | sendToDiscord (msg : DiscordMessage) : Call

/-- What one run of `handleWebhook` did: the response written (`none` when the
handler panicked before writing one) and the calls made, in order. -/
structure Handled where
  response : Option Response
  calls : List Call

/-- `handleWebhook`. -/
def handleWebhook (w : World) (r : Request) : Handled :=
  if r.method ≠ lit "POST" then
    ⟨some (httpError (lit "Method not allowed") 405), []⟩
  else
    match r.body with
    | none => ⟨some (httpError (lit "Bad request") 400), []⟩
    | some body =>
      if r.event = lit "" then ⟨some (httpError (lit "Bad request") 400), []⟩
      else if r.event = lit "ping" then ⟨some ⟨200, lit "pong"⟩, []⟩
      else
        match w.jsonUnmarshal body with
        | Except.error _ => ⟨some (httpError (lit "Bad request") 400), []⟩
        | Except.ok payload =>
          match convertToDiscord r.event payload with
          | none => ⟨none, [Call.convertToDiscord r.event payload]⟩
          | some discordMsg =>
            match sendToDiscord w discordMsg with
            | some _ =>
              ⟨some ⟨200, lit "OK"⟩,
                [Call.convertToDiscord r.event payload, Call.sendToDiscord discordMsg]⟩
            | none =>
              ⟨some ⟨200, lit "OK"⟩,
                [Call.convertToDiscord r.event payload, Call.sendToDiscord discordMsg]⟩

/-! ## Routes -/

/-- `handleHealth`. -/
def handleHealth : Response := ⟨200, lit "OK"⟩

/-- `http.NotFound(w, r)`: status 404 with the text `404 page not found`. -/
def httpNotFound : Response := httpError (lit "404 page not found") 404

/-- `handleRoot`, on the request path `r.URL.Path`. -/
def handleRoot (path : GoString) : Response :=
  if path ≠ lit "/" then httpNotFound
  else ⟨200, lit "GitHub Webhook Discord Bridge"⟩

/-- The handler functions the program defines. -/
inductive Handler where
  | handleWebhook : Handler
  | handleRoot : Handler
  | handleHealth : Handler
deriving DecidableEq

/-- The registrations `http.HandleFunc(pattern, handler)` made by `main`
(lines 35–36). -/
def mainRoutes : List (GoString × Handler) :=
  [(lit "/webhook", Handler.handleWebhook), (lit "/", Handler.handleRoot)]

/-- Pattern matching of `http.ServeMux`: a pattern ending in `/` matches every
path that starts with it, any other pattern matches the equal path only. -/
def patternMatches (pattern path : GoString) : Bool :=
  if pattern.getLast? = some 47 then pattern.isPrefixOf path else pattern == path

/-- The registration `http.ServeMux` selects for a path: among the matching
patterns the longest one. -/
def muxHandler : List (GoString × Handler) → GoString → Option (GoString × Handler)
  | [], _ => none
  | (pattern, handler) :: rest, path =>
    match muxHandler rest path with
    | some (best, chosen) =>
      if patternMatches pattern path ∧ best.length < pattern.length then
        some (pattern, handler)
      else some (best, chosen)
    | none => if patternMatches pattern path then some (pattern, handler) else none

/-- The server `main` starts (`http.ListenAndServe(addr, nil)` on the default
mux), answering a request for `path`. -/
def serve (w : World) (path : GoString) (r : Request) : Handled :=
  match muxHandler mainRoutes path with
  | some (_, Handler.handleWebhook) => handleWebhook w r
  | some (_, Handler.handleRoot) => ⟨some (handleRoot path), []⟩
  | some (_, Handler.handleHealth) => ⟨some handleHealth, []⟩
  | none => ⟨some httpNotFound, []⟩

/-! ## Vocabulary of the statements -/

/-- Whether a decoded value is a JSON object, that is, whether the assertion
`x.(map[string]interface{})` succeeds. -/
def JVal.isObj : JVal → Bool
  | JVal.obj _ => true
  | _ => false

/-- The value found by following a key path, in the words of the field-lookup
rule: every step must land on an object that holds the key; `none` when a key
is missing or a step meets a value that is not an object. -/
def valueAtPath : JVal → List GoString → Option JVal
  | v, [] => some v
  | JVal.obj m, key :: rest =>
    match m.lookup key with
    | some v => valueAtPath v rest
    | none => none
  | _, _ :: _ => none

/-- The ten event kinds named by the cases of the `switch` in
`convertToDiscord`; every other kind takes the `default` case. -/
def recognizedKinds : List GoString :=
  [lit "push", lit "pull_request", lit "issues", lit "issue_comment",
   lit "pull_request_review_comment", lit "pull_request_review", lit "star",
   lit "fork", lit "create", lit "delete"]

/-- The embed of a translated message, when the translation completed. -/
def embedOf (m : Option DiscordMessage) : Option Embed :=
  match m with
  | some msg => msg.embeds.head?
  | none => none

/-! ## Sample surroundings used at concrete inputs -/

/-- A world whose JSON decoder accepts every body as the empty object and
whose chat endpoint answers every POST with the given status and body `"x"`. -/
def sampleWorld (statusCode : Int) : World where
  webhookURL := lit "https://discord.example/hook"
  jsonUnmarshal := fun _ => Except.ok []
  jsonMarshal := fun _ => Except.ok (lit "\x7b\x7d")
  httpPost := fun _ _ _ => PostResult.response statusCode (lit "x")

/-- A world whose JSON decoder rejects every body. -/
def rejectingWorld : World where
  webhookURL := lit "https://discord.example/hook"
  jsonUnmarshal := fun _ => Except.error (lit "invalid character")
  jsonMarshal := fun _ => Except.ok (lit "\x7b\x7d")
  httpPost := fun _ _ _ => PostResult.response 204 (lit "")

/-- A world whose JSON decoder treats the body `null` the way `encoding/json`
documents it: decoding the JSON value null into a map sets the map to nil and
returns no error (a nil map reads like the empty one).  Every other body is
rejected in this world. -/
def nullDecodingWorld (statusCode : Int) : World where
  webhookURL := lit "https://discord.example/hook"
  jsonUnmarshal := fun body =>
    if body = lit "null" then Except.ok [] else Except.error (lit "invalid character")
  jsonMarshal := fun _ => Except.ok (lit "\x7b\x7d")
  httpPost := fun _ _ _ => PostResult.response statusCode (lit "x")

/-- Whether a recorded call is a call to the forwarder. -/
def Call.isSend : Call → Bool
  | Call.sendToDiscord _ => true
  | Call.convertToDiscord _ _ => false

/-- The description entry of the embed of a translated message, when the
translation completed and the entry is present. -/
def descriptionOf (m : Option DiscordMessage) : Option GoString :=
  match m with
  | some msg =>
    match msg.embeds with
    | embed :: _ => embed.description
    | [] => none
  | none => none

/-! ## Translation can panic (C1) -/

/-- C1: the translation is not total.  For the event kind `pull_request` and
the payload `{}` (a JSON object without a `pull_request` member) the unchecked
assertion `payload["pull_request"].(map[string]interface{})` panics, so
`convertToDiscord` returns no message; the dispatcher then writes no response. -/
theorem convertToDiscord_panics_on_empty_pull_request :
    convertToDiscord (lit "pull_request") [] = none ∧
    (handleWebhook (sampleWorld 204)
      ⟨lit "POST", lit "pull_request", lit "", some (lit "\x7b\x7d")⟩).response = none := by
  constructor
  · decide
  · decide

/-! ## Request dispatcher (C2, C3, C4) -/

/-- C2, counterexample: `io.ReadAll(r.Body)` runs before the test for `ping`
(lines 100–105), so a POST whose event is `ping` and whose body cannot be read
is answered 400 `Bad request`, not 200 `pong`. -/
theorem handleWebhook_ping_with_unread_body_is_400 :
    (handleWebhook (sampleWorld 204) ⟨lit "POST", lit "ping", lit "", none⟩).response
      = some ⟨400, lit "Bad request\n"⟩ ∧
    (handleWebhook (sampleWorld 204) ⟨lit "POST", lit "ping", lit "", none⟩).response
      ≠ some ⟨200, lit "pong"⟩ := by
  refine ⟨by decide, by decide⟩

/-- C2, amended: a POST whose `X-GitHub-Event` header is `ping` and whose body
was read is answered 200 with body exactly `pong`, whatever bytes the body
holds and whatever the JSON decoder would say about them, and no call to
`convertToDiscord` or `sendToDiscord` is made; no such call is made either when
the body could not be read. -/
theorem handleWebhook_ping_short_circuits (w : World) (delivery : GoString) :
    (∀ body : GoString,
      (handleWebhook w ⟨lit "POST", lit "ping", delivery, some body⟩).response
          = some ⟨200, lit "pong"⟩ ∧
      (handleWebhook w ⟨lit "POST", lit "ping", delivery, some body⟩).calls = []) ∧
    (handleWebhook w ⟨lit "POST", lit "ping", delivery, none⟩).calls = [] := by
  have h1 : ¬ (lit "ping" = lit "") := by decide
  refine ⟨fun body => ?_, ?_⟩ <;> simp [handleWebhook, h1]

/-- C3: for a POST with a non-empty, non-ping event kind whose body decodes to
a payload on which the translation completes, the response is 200 `OK`
whatever the world's `http.Post` and `json.Marshal` do, that is, whether
`sendToDiscord` returns an error or nil; the forwarder was called once. -/
theorem handleWebhook_ok_whatever_delivery (w : World) (r : Request)
    (body : GoString) (payload : JObj) (msg : DiscordMessage)
    (hmethod : r.method = lit "POST") (hbody : r.body = some body)
    (hevent : r.event ≠ lit "") (hping : r.event ≠ lit "ping")
    (hjson : w.jsonUnmarshal body = Except.ok payload)
    (hconv : convertToDiscord r.event payload = some msg) :
    (handleWebhook w r).response = some ⟨200, lit "OK"⟩ ∧
    (handleWebhook w r).calls =
      [Call.convertToDiscord r.event payload, Call.sendToDiscord msg] := by
  unfold handleWebhook
  simp only [hmethod, hbody, hjson, hconv, ne_eq, not_true_eq_false, if_false,
    if_neg hevent, if_neg hping]
  cases hsend : sendToDiscord w msg <;> simp

/-- Witness for C3: with a chat endpoint answering 400, `sendToDiscord` returns
an error and the caller of `/webhook` still receives 200 `OK`; with one
answering 204 it returns nil and the response is the same. -/
theorem handleWebhook_ok_whatever_delivery_witness :
    sendToDiscord (sampleWorld 400)
        ⟨lit "", [⟨none, some ⟨lit "", lit "", lit ""⟩, some (lit "[] Star removed"),
          some (lit ""), none⟩]⟩
      = some (lit "discord returned 400: x") ∧
    sendToDiscord (sampleWorld 204)
        ⟨lit "", [⟨none, some ⟨lit "", lit "", lit ""⟩, some (lit "[] Star removed"),
          some (lit ""), none⟩]⟩
      = none ∧
    (handleWebhook (sampleWorld 400)
        ⟨lit "POST", lit "star", lit "", some (lit "\x7b\x7d")⟩).response
      = some ⟨200, lit "OK"⟩ ∧
    (handleWebhook (sampleWorld 204)
        ⟨lit "POST", lit "star", lit "", some (lit "\x7b\x7d")⟩).response
      = some ⟨200, lit "OK"⟩ :=
  ⟨by decide, by decide,
    (handleWebhook_ok_whatever_delivery (sampleWorld 400)
      ⟨lit "POST", lit "star", lit "", some (lit "\x7b\x7d")⟩ (lit "\x7b\x7d") []
      ⟨lit "", [⟨none, some ⟨lit "", lit "", lit ""⟩, some (lit "[] Star removed"),
          some (lit ""), none⟩]⟩
      rfl rfl (by decide) (by decide) rfl (by decide)).1,
    (handleWebhook_ok_whatever_delivery (sampleWorld 204)
      ⟨lit "POST", lit "star", lit "", some (lit "\x7b\x7d")⟩ (lit "\x7b\x7d") []
      ⟨lit "", [⟨none, some ⟨lit "", lit "", lit ""⟩, some (lit "[] Star removed"),
          some (lit ""), none⟩]⟩
      rfl rfl (by decide) (by decide) rfl (by decide)).1⟩

/-- C4, counterexample: the body `null` is not a JSON object, yet decoding it
into the payload map returns no error and leaves the map nil.  A POST of kind
`star` with that body is therefore not answered 400: the empty payload is
translated, the forwarder is called, and the answer is 200 `OK`. -/
theorem handleWebhook_null_body_is_forwarded :
    (handleWebhook (nullDecodingWorld 204)
        ⟨lit "POST", lit "star", lit "", some (lit "null")⟩).response
      = some ⟨200, lit "OK"⟩ ∧
    (handleWebhook (nullDecodingWorld 204)
        ⟨lit "POST", lit "star", lit "", some (lit "null")⟩).response
      ≠ some ⟨400, lit "Bad request\n"⟩ ∧
    (handleWebhook (nullDecodingWorld 204)
        ⟨lit "POST", lit "star", lit "", some (lit "null")⟩).calls.map Call.isSend
      = [false, true] := by
  refine ⟨by decide, by decide, by decide⟩

/-- C4, amended: a request whose method is not POST is answered 405; a POST
whose event header is empty or missing is answered 400; a POST with a
non-empty, non-ping event kind whose body could not be read or for which
`json.Unmarshal` returns an error is answered 400; in all three cases neither
the translator nor the forwarder is called. -/
theorem handleWebhook_client_errors (w : World) (r : Request) :
    (r.method ≠ lit "POST" →
      (handleWebhook w r).response = some ⟨405, lit "Method not allowed\n"⟩ ∧
      (handleWebhook w r).calls = []) ∧
    (r.method = lit "POST" → r.event = lit "" →
      (handleWebhook w r).response = some ⟨400, lit "Bad request\n"⟩ ∧
      (handleWebhook w r).calls = []) ∧
    (r.method = lit "POST" → r.event ≠ lit "" → r.event ≠ lit "ping" →
      (∀ body, r.body = some body → ∃ err, w.jsonUnmarshal body = Except.error err) →
      (handleWebhook w r).response = some ⟨400, lit "Bad request\n"⟩ ∧
      (handleWebhook w r).calls = []) := by
  have e405 : httpError (lit "Method not allowed") 405
      = ⟨405, lit "Method not allowed\n"⟩ := by decide
  have e400 : httpError (lit "Bad request") 400 = ⟨400, lit "Bad request\n"⟩ := by
    decide
  refine ⟨fun hm => ?_, fun hm he => ?_, fun hm he hp hj => ?_⟩
  · simp [handleWebhook, hm, e405]
  · cases hb : r.body <;> simp [handleWebhook, hm, he, hb, e400]
  · cases hb : r.body with
    | none => simp [handleWebhook, hm, hb, e400]
    | some body =>
      obtain ⟨err, herr⟩ := hj body hb
      simp [handleWebhook, hm, he, hp, hb, herr, e400]

/-- Witness for C4: a GET request, a POST without event header, and a POST of
kind `push` whose body the decoder rejects. -/
theorem handleWebhook_client_errors_witness :
    ((handleWebhook rejectingWorld ⟨lit "GET", lit "push", lit "", some (lit "\x7b\x7d")⟩).response
        = some ⟨405, lit "Method not allowed\n"⟩ ∧
      (handleWebhook rejectingWorld ⟨lit "GET", lit "push", lit "", some (lit "\x7b\x7d")⟩).calls
        = []) ∧
    ((handleWebhook rejectingWorld ⟨lit "POST", lit "", lit "", some (lit "\x7b\x7d")⟩).response
        = some ⟨400, lit "Bad request\n"⟩ ∧
      (handleWebhook rejectingWorld ⟨lit "POST", lit "", lit "", some (lit "\x7b\x7d")⟩).calls
        = []) ∧
    ((handleWebhook rejectingWorld ⟨lit "POST", lit "push", lit "", some (lit "\x7b")⟩).response
        = some ⟨400, lit "Bad request\n"⟩ ∧
      (handleWebhook rejectingWorld ⟨lit "POST", lit "push", lit "", some (lit "\x7b")⟩).calls
        = []) :=
  ⟨(handleWebhook_client_errors rejectingWorld
      ⟨lit "GET", lit "push", lit "", some (lit "\x7b\x7d")⟩).1 (by decide),
    (handleWebhook_client_errors rejectingWorld
      ⟨lit "POST", lit "", lit "", some (lit "\x7b\x7d")⟩).2.1 rfl rfl,
    (handleWebhook_client_errors rejectingWorld
      ⟨lit "POST", lit "push", lit "", some (lit "\x7b")⟩).2.2 rfl (by decide) (by decide)
      (fun _ _ => ⟨lit "invalid character", rfl⟩)⟩

/-! ## Shared lemmas on the translator -/

theorem lit_dots_length : (lit "...").length = 3 := by decide

theorem truncateBody_eq (body : GoString) :
    truncateBody body = if body.length ≤ 200 then body else body.take 200 ++ lit "..." := by
  unfold truncateBody
  by_cases h : body.length ≤ 200
  · simp [h, Nat.not_lt.mpr h]
  · simp [h, Nat.lt_of_not_le h]

theorem truncateBody_length_le (body : GoString) : (truncateBody body).length ≤ 203 := by
  rw [truncateBody_eq]
  split
  · omega
  · simp [lit_dots_length]

theorem dispatch_push (embed : Embed) (payload : JObj) :
    dispatch (lit "push") embed payload = handlePushEvent embed payload := by
  simp [dispatch]

theorem pushLoop_objects (cs : List JObj) (i : Nat) (d : GoString) :
    pushLoop (cs.map JVal.obj) i d = some (d ++ (cs.take (5 - i)).flatMap pushLine) := by
  induction cs generalizing i d with
  | nil => simp [pushLoop]
  | cons c rest ih =>
    by_cases hi : i ≥ 5
    · have h0 : 5 - i = 0 := by omega
      simp [pushLoop, hi, h0]
    · have h1 : 5 - i = (5 - (i + 1)) + 1 := by omega
      simp only [List.map_cons, pushLoop, hi, if_false, ih]
      rw [h1, List.take_succ_cons]
      simp [List.append_assoc]

theorem push_description (payload : JObj) (cs : List JObj)
    (hc : mapIndex payload (lit "commits") = JVal.arr (cs.map JVal.obj))
    (hne : 0 < cs.length) :
    descriptionOf (convertToDiscord (lit "push") payload) =
      some ((cs.take 5).flatMap pushLine ++
        (if cs.length > 5 then
          lit "... and " ++ fmtInt ((cs.length : Int) - 5) ++ lit " more commits"
        else [])) := by
  unfold convertToDiscord
  rw [dispatch_push]
  unfold handlePushEvent
  simp only [hc, List.length_map, hne, if_true, pushLoop_objects]
  by_cases h5 : cs.length > 5
  · simp [descriptionOf, h5, lit, List.append_assoc]
  · simp [descriptionOf, h5, lit]

theorem handlePullRequestEvent_description (payload : JObj) (e : Embed)
    (h : handlePullRequestEvent Embed.empty payload = some e) : e.description = none := by
  unfold handlePullRequestEvent at h
  split at h
  · simp only [Option.some.injEq] at h
    subst h
    split_ifs <;> rfl
  · exact absurd h (by simp)

theorem handleIssuesEvent_description (payload : JObj) (e : Embed)
    (h : handleIssuesEvent Embed.empty payload = some e) : e.description = none := by
  unfold handleIssuesEvent at h
  split at h
  · simp only [Option.some.injEq] at h
    subst h
    rfl
  · exact absurd h (by simp)

theorem handleIssueCommentEvent_description (payload : JObj) (e : Embed)
    (h : handleIssueCommentEvent Embed.empty payload = some e) :
    ∃ body, e.description = some (truncateBody body) := by
  unfold handleIssueCommentEvent at h
  split at h
  · split at h
    · simp only [Option.some.injEq] at h
      subst h
      exact ⟨_, rfl⟩
    · exact absurd h (by simp)
  · exact absurd h (by simp)

theorem handlePRReviewCommentEvent_description (payload : JObj) (e : Embed)
    (h : handlePRReviewCommentEvent Embed.empty payload = some e) :
    ∃ body, e.description = some (truncateBody body) := by
  unfold handlePRReviewCommentEvent at h
  split at h
  · split at h
    · simp only [Option.some.injEq] at h
      subst h
      exact ⟨_, rfl⟩
    · exact absurd h (by simp)
  · exact absurd h (by simp)

theorem handlePRReviewEvent_description (payload : JObj) (e : Embed)
    (h : handlePRReviewEvent Embed.empty payload = some e) :
    e.description = none ∨ ∃ body, e.description = some (truncateBody body) := by
  unfold handlePRReviewEvent at h
  split at h
  · split at h
    · dsimp only at h
      split_ifs at h
      · simp only [Option.some.injEq] at h
        subst h
        exact Or.inr ⟨_, rfl⟩
      · simp only [Option.some.injEq] at h
        subst h
        exact Or.inl rfl
    · exact absurd h (by simp)
  · exact absurd h (by simp)

theorem handleStarEvent_description (payload : JObj) (e : Embed)
    (h : handleStarEvent Embed.empty payload = some e) : e.description = none := by
  unfold handleStarEvent at h
  simp only [Option.some.injEq] at h
  subst h
  split_ifs <;> rfl

theorem handleCreateEvent_description (payload : JObj) (e : Embed)
    (h : handleCreateEvent Embed.empty payload = some e) : e.description = none := by
  unfold handleCreateEvent at h
  simp only [Option.some.injEq] at h
  subst h
  rfl

theorem handleDeleteEvent_description (payload : JObj) (e : Embed)
    (h : handleDeleteEvent Embed.empty payload = some e) : e.description = none := by
  unfold handleDeleteEvent at h
  simp only [Option.some.injEq] at h
  subst h
  rfl

theorem handleDefaultEvent_description (event : GoString) (payload : JObj) (e : Embed)
    (h : handleDefaultEvent Embed.empty event payload = some e) :
    e.description = none := by
  unfold handleDefaultEvent at h
  simp only [Option.some.injEq] at h
  subst h
  rfl

theorem dispatch_description (event : GoString) (payload : JObj) (e : Embed)
    (d : GoString) (hpush : event ≠ lit "push") (hfork : event ≠ lit "fork")
    (h : dispatch event Embed.empty payload = some e) (hd : e.description = some d) :
    ∃ body, d = truncateBody body := by
  unfold dispatch at h
  rw [if_neg hpush] at h
  split_ifs at h
  · rw [handlePullRequestEvent_description payload e h] at hd
    exact absurd hd (by simp)
  · rw [handleIssuesEvent_description payload e h] at hd
    exact absurd hd (by simp)
  · obtain ⟨body, hb⟩ := handleIssueCommentEvent_description payload e h
    exact ⟨body, by rw [hb] at hd; exact (Option.some.inj hd).symm⟩
  · obtain ⟨body, hb⟩ := handlePRReviewCommentEvent_description payload e h
    exact ⟨body, by rw [hb] at hd; exact (Option.some.inj hd).symm⟩
  · rcases handlePRReviewEvent_description payload e h with hn | ⟨body, hb⟩
    · rw [hn] at hd
      exact absurd hd (by simp)
    · exact ⟨body, by rw [hb] at hd; exact (Option.some.inj hd).symm⟩
  · rw [handleStarEvent_description payload e h] at hd
    exact absurd hd (by simp)
  · rw [handleCreateEvent_description payload e h] at hd
    exact absurd hd (by simp)
  · rw [handleDeleteEvent_description payload e h] at hd
    exact absurd hd (by simp)
  · rw [handleDefaultEvent_description event payload e h] at hd
    exact absurd hd (by simp)

theorem dispatch_issue_comment (embed : Embed) (payload : JObj) :
    dispatch (lit "issue_comment") embed payload
      = handleIssueCommentEvent embed payload := by
  unfold dispatch
  rw [if_neg (by decide), if_neg (by decide), if_neg (by decide), if_pos rfl]

theorem dispatch_review_comment (embed : Embed) (payload : JObj) :
    dispatch (lit "pull_request_review_comment") embed payload
      = handlePRReviewCommentEvent embed payload := by
  unfold dispatch
  rw [if_neg (by decide), if_neg (by decide), if_neg (by decide), if_neg (by decide),
    if_pos rfl]

theorem pushLine_eq (c : JObj) :
    pushLine c =
      lit "`" ++
        (if 7 ≤ (getStr c [lit "id"]).length then (getStr c [lit "id"]).take 7
          else getStr c [lit "id"])
        ++ lit "` " ++ getStr c [lit "message"] ++ lit " - "
        ++ getStr c [lit "author", lit "name"] ++ lit "\n" := by
  unfold pushLine pushSha
  have hsha : (if (getStr c [lit "id"]).length > 7 then (getStr c [lit "id"]).take 7
        else getStr c [lit "id"])
      = (if 7 ≤ (getStr c [lit "id"]).length then (getStr c [lit "id"]).take 7
        else getStr c [lit "id"]) := by
    by_cases h1 : (getStr c [lit "id"]).length > 7
    · rw [if_pos h1, if_pos (Nat.le_of_lt h1)]
    · by_cases h2 : 7 ≤ (getStr c [lit "id"]).length
      · rw [if_neg h1, if_pos h2, List.take_of_length_le (by omega)]
      · rw [if_neg h1, if_neg h2]
  simp only [hsha]

/-! ## Comment truncation (C5) -/

/-- C5, counterexample: an issue comment whose body is 101 times the character
`é` has 101 characters, at most 200, yet its description is not the body: the
code counts the 202 bytes of the body and keeps the first 200 of them, that is
100 characters, followed by `...`. -/
theorem comment_of_101_characters_is_cut :
    (String.mk (List.replicate 101 'é')).length = 101 ∧
    descriptionOf (convertToDiscord (lit "issue_comment")
        [(lit "issue", JVal.obj []),
         (lit "comment", JVal.obj
            [(lit "body", JVal.str (lit (String.mk (List.replicate 101 'é'))))])])
      = some (lit (String.mk (List.replicate 100 'é') ++ "...")) ∧
    lit (String.mk (List.replicate 100 'é') ++ "...")
      ≠ lit (String.mk (List.replicate 101 'é')) := by
  refine ⟨by decide, by decide, by decide⟩

/-- C5, amended: for the issue-comment and review-comment kinds, when the two
nested objects the handler asserts are present, the description equals the
comment body unchanged when the body has at most 200 bytes, and the first 200
bytes of the body followed by `...` when it has more than 200 bytes. -/
theorem comment_description_cut_at_200_bytes (payload subject comment : JObj)
    (hcomment : mapIndex payload (lit "comment") = JVal.obj comment) :
    (mapIndex payload (lit "issue") = JVal.obj subject →
      descriptionOf (convertToDiscord (lit "issue_comment") payload) =
        some (if (getStr comment [lit "body"]).length ≤ 200 then getStr comment [lit "body"]
          else (getStr comment [lit "body"]).take 200 ++ lit "...")) ∧
    (mapIndex payload (lit "pull_request") = JVal.obj subject →
      descriptionOf (convertToDiscord (lit "pull_request_review_comment") payload) =
        some (if (getStr comment [lit "body"]).length ≤ 200 then getStr comment [lit "body"]
          else (getStr comment [lit "body"]).take 200 ++ lit "...")) := by
  constructor
  · intro hsubject
    unfold convertToDiscord
    rw [dispatch_issue_comment]
    unfold handleIssueCommentEvent
    simp only [hsubject, hcomment, descriptionOf, truncateBody_eq]
  · intro hsubject
    unfold convertToDiscord
    rw [dispatch_review_comment]
    unfold handlePRReviewCommentEvent
    simp only [hsubject, hcomment, descriptionOf, truncateBody_eq]

/-- Witness for C5: a payload carrying `issue`, `pull_request` and a comment
whose body is `hello`. -/
theorem comment_description_cut_at_200_bytes_witness :
    descriptionOf (convertToDiscord (lit "issue_comment")
        [(lit "issue", JVal.obj []), (lit "pull_request", JVal.obj []),
         (lit "comment", JVal.obj [(lit "body", JVal.str (lit "hello"))])])
      = some (lit "hello") ∧
    descriptionOf (convertToDiscord (lit "pull_request_review_comment")
        [(lit "issue", JVal.obj []), (lit "pull_request", JVal.obj []),
         (lit "comment", JVal.obj [(lit "body", JVal.str (lit "hello"))])])
      = some (lit "hello") :=
  ⟨((comment_description_cut_at_200_bytes
      [(lit "issue", JVal.obj []), (lit "pull_request", JVal.obj []),
       (lit "comment", JVal.obj [(lit "body", JVal.str (lit "hello"))])]
      [] [(lit "body", JVal.str (lit "hello"))] rfl).1 rfl).trans (by decide),
   ((comment_description_cut_at_200_bytes
      [(lit "issue", JVal.obj []), (lit "pull_request", JVal.obj []),
       (lit "comment", JVal.obj [(lit "body", JVal.str (lit "hello"))])]
      [] [(lit "body", JVal.str (lit "hello"))] rfl).2 rfl).trans (by decide)⟩

/-! ## Length of the description (C6) -/

/-- C6, counterexample: a fork event whose `forkee.html_url` has 198 characters
yields the description `Fork: ` followed by the url, 204 characters; a push
event with one commit whose message has 200 characters yields a description of
207 characters.  Neither handler truncates. -/
theorem fork_and_push_descriptions_exceed_203 :
    descriptionOf (convertToDiscord (lit "fork")
        [(lit "forkee", JVal.obj
            [(lit "html_url", JVal.str (lit (String.mk (List.replicate 198 'a'))))])])
      = some (lit ("Fork: " ++ String.mk (List.replicate 198 'a'))) ∧
    ("Fork: " ++ String.mk (List.replicate 198 'a')).length = 204 ∧
    (lit ("Fork: " ++ String.mk (List.replicate 198 'a'))).length = 204 ∧
    descriptionOf (convertToDiscord (lit "push")
        [(lit "commits", JVal.arr [JVal.obj
            [(lit "message", JVal.str (lit (String.mk (List.replicate 200 'a'))))]])])
      = some (lit ("`` " ++ String.mk (List.replicate 200 'a') ++ " - \n")) ∧
    ("`` " ++ String.mk (List.replicate 200 'a') ++ " - \n").length = 207 ∧
    (lit ("`` " ++ String.mk (List.replicate 200 'a') ++ " - \n")).length = 207 := by
  refine ⟨by decide, by decide, by decide, by decide, by decide, by decide⟩

/-- C6, amended: for every event kind other than `push` and `fork` and every
payload on which `convertToDiscord` completes, a description that is present is
some body text left whole when it has at most 200 bytes and otherwise cut to
its first 200 bytes followed by `...`; it is never longer than 203 bytes. -/
theorem description_bounded_outside_push_and_fork (event : GoString) (payload : JObj)
    (msg : DiscordMessage) (embed : Embed) (d : GoString)
    (hpush : event ≠ lit "push") (hfork : event ≠ lit "fork")
    (hconv : convertToDiscord event payload = some msg)
    (hmem : embed ∈ msg.embeds) (hd : embed.description = some d) :
    d.length ≤ 203 ∧
    ∃ body : GoString,
      d = if body.length ≤ 200 then body else body.take 200 ++ lit "..." := by
  unfold convertToDiscord at hconv
  cases hdis : dispatch event Embed.empty payload with
  | none => simp [hdis] at hconv
  | some e0 =>
    simp only [hdis, Option.some.injEq] at hconv
    subst hconv
    simp only [List.mem_singleton] at hmem
    subst hmem
    obtain ⟨body, hb⟩ := dispatch_description event payload embed d hpush hfork hdis hd
    subst hb
    exact ⟨truncateBody_length_le body, body, truncateBody_eq body⟩

/-- Witness for C6: a review event whose review body is `ok`. -/
theorem description_bounded_outside_push_and_fork_witness :
    convertToDiscord (lit "pull_request_review")
        [(lit "pull_request", JVal.obj []),
         (lit "review", JVal.obj [(lit "body", JVal.str (lit "ok"))])]
      = some ⟨lit "", [⟨some 0x90EE90, some ⟨lit "", lit "", lit ""⟩,
          some (lit "[] Pull request review  on #0: "), some (lit ""), some (lit "ok")⟩]⟩ ∧
    (lit "ok").length ≤ 203 :=
  ⟨by decide,
   (description_bounded_outside_push_and_fork (lit "pull_request_review")
      [(lit "pull_request", JVal.obj []),
       (lit "review", JVal.obj [(lit "body", JVal.str (lit "ok"))])]
      ⟨lit "", [⟨some 0x90EE90, some ⟨lit "", lit "", lit ""⟩,
          some (lit "[] Pull request review  on #0: "), some (lit ""), some (lit "ok")⟩]⟩
      ⟨some 0x90EE90, some ⟨lit "", lit "", lit ""⟩,
          some (lit "[] Pull request review  on #0: "), some (lit ""), some (lit "ok")⟩
      (lit "ok") (by decide) (by decide) (by decide) (List.mem_singleton.mpr rfl) rfl).1⟩

/-! ## Branch name in the push title (C7) -/

/-- C7: the branch shown in the push title.  A ref that does not start with
`refs/heads/` is used unchanged, and a ref `refs/heads/` followed by a non-empty
`s` gives the branch `s`; but the guard is `len(ref) > 11`, so the ref that is
exactly `refs/heads/` (the case of an empty `s`) keeps its prefix: the branch is
`refs/heads/`, not the empty string, and the title reads `[:refs/heads/] `. -/
theorem pushBranch_keeps_bare_refs_heads :
    (pushBranch (lit "refs/heads/" ++ []) = lit "refs/heads/" ∧
      pushBranch (lit "refs/heads/" ++ []) ≠ []) ∧
    (match convertToDiscord (lit "push") [(lit "ref", JVal.str (lit "refs/heads/"))] with
      | some msg => msg.embeds.map (fun e => e.title)
      | none => []) = [some (lit "[:refs/heads/] ")] ∧
    (∀ s : GoString, s ≠ [] → pushBranch (lit "refs/heads/" ++ s) = s) ∧
    (∀ ref : GoString, ¬ (lit "refs/heads/" <+: ref) → pushBranch ref = ref) := by
  have hlen : (lit "refs/heads/").length = 11 := by decide
  refine ⟨⟨by decide, by decide⟩, by decide, fun s hs => ?_, fun ref hp => ?_⟩
  · have hpos : 0 < s.length := List.length_pos.mpr hs
    unfold pushBranch
    have htake : (lit "refs/heads/" ++ s).take 11 = lit "refs/heads/" := by
      rw [← hlen, List.take_left]
    have hdrop : (lit "refs/heads/" ++ s).drop 11 = s := by
      rw [← hlen, List.drop_left]
    have hgt : (lit "refs/heads/" ++ s).length > 11 := by
      rw [List.length_append, hlen]
      omega
    rw [if_pos ⟨hgt, htake⟩, hdrop]
  · unfold pushBranch
    have hno : ¬ (ref.length > 11 ∧ ref.take 11 = lit "refs/heads/") := by
      rintro ⟨_, ht⟩
      exact hp (ht ▸ List.take_prefix 11 ref)
    rw [if_neg hno]

/-- Witness for C7: `refs/heads/main` gives `main`, and `feature/x` is kept. -/
theorem pushBranch_keeps_bare_refs_heads_witness :
    pushBranch (lit "refs/heads/" ++ lit "main") = lit "main" ∧
    pushBranch (lit "feature/x") = lit "feature/x" :=
  ⟨pushBranch_keeps_bare_refs_heads.2.2.1 (lit "main") (by decide),
   pushBranch_keeps_bare_refs_heads.2.2.2 (lit "feature/x") (by decide)⟩

/-! ## Commit lines of the push description (C8, C9, C10) -/

/-- C8, counterexample: the commit id `aéééé` has 5 characters, fewer than 7,
yet the hash shown between the backticks is `aééé` and not the whole id: the
id has 9 bytes and the code keeps its first 7. -/
theorem short_hash_of_5_characters_is_cut :
    "aéééé".length = 5 ∧
    descriptionOf (convertToDiscord (lit "push")
        [(lit "commits", JVal.arr [JVal.obj [(lit "id", JVal.str (lit "aéééé"))]])])
      = some (lit "`" ++ lit "aééé" ++ lit "`  - \n") ∧
    lit "aééé" ≠ lit "aéééé" := by
  refine ⟨by decide, by decide, by decide⟩

/-- C8, amended: in a code-push payload whose commits are objects, each of the
first five commits contributes the line made of a backtick, the short hash, a
backtick and a blank, the message, ` - `, the author name and a newline, where
the short hash is the first 7 bytes of the commit id when the id has 7 or more
bytes and the whole id when it has fewer. -/
theorem push_short_hash_is_first_7_bytes (payload : JObj) (cs : List JObj)
    (hc : mapIndex payload (lit "commits") = JVal.arr (cs.map JVal.obj))
    (hne : 0 < cs.length) :
    descriptionOf (convertToDiscord (lit "push") payload) =
      some ((cs.take 5).flatMap (fun c =>
          lit "`" ++
            (if 7 ≤ (getStr c [lit "id"]).length then (getStr c [lit "id"]).take 7
              else getStr c [lit "id"])
            ++ lit "` " ++ getStr c [lit "message"] ++ lit " - "
            ++ getStr c [lit "author", lit "name"] ++ lit "\n") ++
        (if cs.length > 5 then
          lit "... and " ++ fmtInt ((cs.length : Int) - 5) ++ lit " more commits"
        else [])) := by
  rw [push_description payload cs hc hne]
  have hfun : pushLine = fun c =>
      lit "`" ++
        (if 7 ≤ (getStr c [lit "id"]).length then (getStr c [lit "id"]).take 7
          else getStr c [lit "id"])
        ++ lit "` " ++ getStr c [lit "message"] ++ lit " - "
        ++ getStr c [lit "author", lit "name"] ++ lit "\n" := funext pushLine_eq
  rw [hfun]

/-- Witness for C8: a 40-byte id yields its 7-byte beginning and a 3-byte id
yields itself. -/
theorem push_short_hash_is_first_7_bytes_witness :
    descriptionOf (convertToDiscord (lit "push")
        [(lit "commits", JVal.arr
          [JVal.obj [(lit "id", JVal.str (lit "0123456789abcdef0123456789abcdef01234567"))],
           JVal.obj [(lit "id", JVal.str (lit "abc"))]])])
      = some (lit "`0123456`  - \n`abc`  - \n") :=
  (push_short_hash_is_first_7_bytes
    [(lit "commits", JVal.arr
      [JVal.obj [(lit "id", JVal.str (lit "0123456789abcdef0123456789abcdef01234567"))],
       JVal.obj [(lit "id", JVal.str (lit "abc"))]])]
    [[(lit "id", JVal.str (lit "0123456789abcdef0123456789abcdef01234567"))],
     [(lit "id", JVal.str (lit "abc"))]] rfl (by decide)).trans (by decide)

/-- C9: for a code-push payload whose commits array holds n > 5 commit objects,
the description is the lines of the first 5 commits, in payload order, each
ended by its newline, followed by `... and K more commits` with K = n - 5. -/
theorem push_description_caps_at_5 (payload : JObj) (cs : List JObj)
    (hc : mapIndex payload (lit "commits") = JVal.arr (cs.map JVal.obj))
    (hn : cs.length > 5) :
    descriptionOf (convertToDiscord (lit "push") payload) =
      some ((cs.take 5).flatMap pushLine ++
        (lit "... and " ++ fmtInt ((cs.length : Int) - 5) ++ lit " more commits")) ∧
    (cs.take 5).length = 5 := by
  constructor
  · rw [push_description payload cs hc (by omega), if_pos hn]
  · rw [List.length_take]
    omega

/-- Witness for C9: 7 commits with ids `c1` to `c7` give the 5 lines of `c1` to
`c5` and then `... and 2 more commits`. -/
theorem push_description_caps_at_5_witness :
    descriptionOf (convertToDiscord (lit "push")
        [(lit "commits", JVal.arr
          [JVal.obj [(lit "id", JVal.str (lit "c1"))],
           JVal.obj [(lit "id", JVal.str (lit "c2"))],
           JVal.obj [(lit "id", JVal.str (lit "c3"))],
           JVal.obj [(lit "id", JVal.str (lit "c4"))],
           JVal.obj [(lit "id", JVal.str (lit "c5"))],
           JVal.obj [(lit "id", JVal.str (lit "c6"))],
           JVal.obj [(lit "id", JVal.str (lit "c7"))]])])
      = some (lit
          "`c1`  - \n`c2`  - \n`c3`  - \n`c4`  - \n`c5`  - \n... and 2 more commits") :=
  (push_description_caps_at_5
    [(lit "commits", JVal.arr
      [JVal.obj [(lit "id", JVal.str (lit "c1"))],
       JVal.obj [(lit "id", JVal.str (lit "c2"))],
       JVal.obj [(lit "id", JVal.str (lit "c3"))],
       JVal.obj [(lit "id", JVal.str (lit "c4"))],
       JVal.obj [(lit "id", JVal.str (lit "c5"))],
       JVal.obj [(lit "id", JVal.str (lit "c6"))],
       JVal.obj [(lit "id", JVal.str (lit "c7"))]])]
    [[(lit "id", JVal.str (lit "c1"))], [(lit "id", JVal.str (lit "c2"))],
     [(lit "id", JVal.str (lit "c3"))], [(lit "id", JVal.str (lit "c4"))],
     [(lit "id", JVal.str (lit "c5"))], [(lit "id", JVal.str (lit "c6"))],
     [(lit "id", JVal.str (lit "c7"))]] rfl (by decide)).1.trans (by decide)

/-- C10, counterexample: with two commits the description is the two lines
each followed by a newline, so it ends in a newline and differs from the two
lines joined by a single newline. -/
theorem push_description_ends_in_newline :
    descriptionOf (convertToDiscord (lit "push")
        [(lit "commits", JVal.arr
          [JVal.obj [(lit "id", JVal.str (lit "abc")), (lit "message", JVal.str (lit "m")),
            (lit "author", JVal.obj [(lit "name", JVal.str (lit "a"))])],
           JVal.obj [(lit "id", JVal.str (lit "def")), (lit "message", JVal.str (lit "n")),
            (lit "author", JVal.obj [(lit "name", JVal.str (lit "b"))])]])])
      = some (lit "`abc` m - a\n`def` n - b\n") ∧
    lit "`abc` m - a\n`def` n - b\n"
      ≠ lit "`abc` m - a" ++ lit "\n" ++ lit "`def` n - b" := by
  refine ⟨by decide, by decide⟩

/-- C10, amended: for a code-push payload whose commits array holds between 1
and 5 commit objects, the description is the per-commit lines, a backtick, the
short hash, a backtick and a blank, the message, ` - ` and the author name,
each followed by a newline (also the last one), with nothing after them. -/
theorem push_description_lines_newline_ended (payload : JObj) (cs : List JObj)
    (hc : mapIndex payload (lit "commits") = JVal.arr (cs.map JVal.obj))
    (h1 : 1 ≤ cs.length) (h5 : cs.length ≤ 5) :
    descriptionOf (convertToDiscord (lit "push") payload) =
      some (cs.flatMap (fun c =>
        (lit "`" ++ pushSha c ++ lit "` " ++ getStr c [lit "message"] ++ lit " - "
          ++ getStr c [lit "author", lit "name"]) ++ lit "\n")) := by
  rw [push_description payload cs hc (by omega), if_neg (by omega),
    List.take_of_length_le h5, List.append_nil]
  have hfun : pushLine = fun c =>
      (lit "`" ++ pushSha c ++ lit "` " ++ getStr c [lit "message"] ++ lit " - "
        ++ getStr c [lit "author", lit "name"]) ++ lit "\n" := by
    funext c
    simp [pushLine, List.append_assoc]
  rw [hfun]

/-- Witness for C10: the two-commit payload. -/
theorem push_description_lines_newline_ended_witness :
    descriptionOf (convertToDiscord (lit "push")
        [(lit "commits", JVal.arr
          [JVal.obj [(lit "id", JVal.str (lit "abc")), (lit "message", JVal.str (lit "m")),
            (lit "author", JVal.obj [(lit "name", JVal.str (lit "a"))])],
           JVal.obj [(lit "id", JVal.str (lit "def")), (lit "message", JVal.str (lit "n")),
            (lit "author", JVal.obj [(lit "name", JVal.str (lit "b"))])]])])
      = some (lit "`abc` m - a\n" ++ lit "`def` n - b\n") :=
  (push_description_lines_newline_ended
    [(lit "commits", JVal.arr
      [JVal.obj [(lit "id", JVal.str (lit "abc")), (lit "message", JVal.str (lit "m")),
        (lit "author", JVal.obj [(lit "name", JVal.str (lit "a"))])],
       JVal.obj [(lit "id", JVal.str (lit "def")), (lit "message", JVal.str (lit "n")),
        (lit "author", JVal.obj [(lit "name", JVal.str (lit "b"))])]])]
    [[(lit "id", JVal.str (lit "abc")), (lit "message", JVal.str (lit "m")),
      (lit "author", JVal.obj [(lit "name", JVal.str (lit "a"))])],
     [(lit "id", JVal.str (lit "def")), (lit "message", JVal.str (lit "n")),
      (lit "author", JVal.obj [(lit "name", JVal.str (lit "b"))])]]
    rfl (by decide) (by decide)).trans (by decide)

/-! ## Further shared lemmas -/

theorem getStr_single (data : JObj) (key : GoString) :
    getStr data [key] =
      match mapIndex data key with
      | JVal.str s => s
      | _ => [] := by
  unfold getStr
  rw [getStrFrom]
  cases mapIndex data key <;> simp [getStrFrom]

theorem pushLoop_eq_none_iff (xs : List JVal) (i : Nat) (d : GoString) :
    pushLoop xs i d = none ↔ ∃ x ∈ xs.take (5 - i), x.isObj = false := by
  induction xs generalizing i d with
  | nil => simp [pushLoop]
  | cons x rest ih =>
    by_cases hi : i ≥ 5
    · have h0 : 5 - i = 0 := by omega
      simp [pushLoop, hi, h0]
    · have h1 : 5 - i = (5 - (i + 1)) + 1 := by omega
      rw [h1, List.take_succ_cons]
      cases x with
      | obj c => simp [pushLoop, hi, ih, JVal.isObj]
      | null => simp [pushLoop, hi, JVal.isObj]
      | bool b => simp [pushLoop, hi, JVal.isObj]
      | num f => simp [pushLoop, hi, JVal.isObj]
      | str t => simp [pushLoop, hi, JVal.isObj]
      | arr ys => simp [pushLoop, hi, JVal.isObj]

theorem handlePushEvent_eq_none_iff (embed : Embed) (payload : JObj) :
    handlePushEvent embed payload = none ↔
      ∃ xs, mapIndex payload (lit "commits") = JVal.arr xs ∧
        ∃ x ∈ xs.take 5, x.isObj = false := by
  unfold handlePushEvent
  cases hc : mapIndex payload (lit "commits") with
  | arr xs =>
    simp only [JVal.arr.injEq, exists_eq_left']
    by_cases hlen : xs.length > 0
    · simp only [hlen, if_true]
      cases hl : pushLoop xs 0 (lit "") with
      | none =>
        simp only [true_iff]
        exact (pushLoop_eq_none_iff xs 0 (lit "")).mp hl
      | some d =>
        constructor
        · intro hcontra
          exact absurd hcontra (by simp)
        · intro hex
          have hnone := (pushLoop_eq_none_iff xs 0 (lit "")).mpr hex
          rw [hl] at hnone
          exact absurd hnone (by simp)
    · have hnil : xs = [] := List.length_eq_zero.mp (by omega)
      subst hnil
      simp
  | null => simp
  | bool b => simp
  | num f => simp
  | str t => simp
  | obj m => simp

theorem handlePushEvent_header (embed : Embed) (payload : JObj) (xs : List JVal)
    (e : Embed) (hc : mapIndex payload (lit "commits") = JVal.arr xs)
    (h : handlePushEvent embed payload = some e) :
    e.title = some (lit "[" ++ getStr payload [lit "repository", lit "full_name"]
        ++ lit ":" ++ pushBranch (getStr payload [lit "ref"]) ++ lit "] "
        ++ (if xs.length = 1 then lit "1 new commit"
            else fmtInt xs.length ++ lit " new commits")) ∧
    e.url = some (getStr payload [lit "compare"]) ∧
    e.color = some 0x7289DA := by
  unfold handlePushEvent at h
  simp only [hc] at h
  by_cases hlen : xs.length > 0
  · simp only [hlen, if_true] at h
    cases hl : pushLoop xs 0 (lit "") with
    | none => simp [hl] at h
    | some d =>
      simp only [hl, Option.some.injEq] at h
      subst h
      exact ⟨rfl, rfl, rfl⟩
  · simp only [hlen, if_false, Option.some.injEq] at h
    subst h
    exact ⟨rfl, rfl, rfl⟩

theorem dispatch_pull_request (embed : Embed) (payload : JObj) :
    dispatch (lit "pull_request") embed payload
      = handlePullRequestEvent embed payload := by
  unfold dispatch
  rw [if_neg (by decide), if_pos rfl]

/-! ## Title, link and color of a push (C11) -/

/-- C11: for a code-push payload whose commits field is an array of N entries,
whenever the translation completes the title is `[repo:branch] N new commits`
for N other than 1 and `[repo:branch] 1 new commit` for N = 1, the url is the
compare field and the color is 0x7289DA; and it completes whenever the first
five entries are objects.  But for the array `[1]`, whose one entry is a number,
the assertion `commit.(map[string]interface{})` panics and no embed is
produced at all. -/
theorem push_title_link_color :
    convertToDiscord (lit "push") [(lit "commits", JVal.arr [JVal.num 1])] = none ∧
    (∀ (payload : JObj) (xs : List JVal) (msg : DiscordMessage),
      mapIndex payload (lit "commits") = JVal.arr xs →
      convertToDiscord (lit "push") payload = some msg →
      ∃ e, msg.embeds = [e] ∧
        e.title = some (lit "[" ++ getStr payload [lit "repository", lit "full_name"]
          ++ lit ":" ++ pushBranch (getStr payload [lit "ref"]) ++ lit "] "
          ++ (if xs.length = 1 then lit "1 new commit"
              else fmtInt xs.length ++ lit " new commits")) ∧
        e.url = some (getStr payload [lit "compare"]) ∧
        e.color = some 0x7289DA) ∧
    (∀ (payload : JObj) (xs : List JVal),
      mapIndex payload (lit "commits") = JVal.arr xs →
      (∀ x ∈ xs.take 5, x.isObj = true) →
      ∃ msg, convertToDiscord (lit "push") payload = some msg) := by
  refine ⟨by decide, ?_, ?_⟩
  · intro payload xs msg hc hconv
    unfold convertToDiscord at hconv
    rw [dispatch_push] at hconv
    cases hh : handlePushEvent Embed.empty payload with
    | none => simp [hh] at hconv
    | some e =>
      simp only [hh, Option.some.injEq] at hconv
      subst hconv
      exact ⟨e, rfl, handlePushEvent_header Embed.empty payload xs e hc hh⟩
  · intro payload xs hc hobj
    unfold convertToDiscord
    rw [dispatch_push]
    cases hh : handlePushEvent Embed.empty payload with
    | none =>
      obtain ⟨ys, hys, x, hx, hfalse⟩ :=
        (handlePushEvent_eq_none_iff Embed.empty payload).mp hh
      rw [hc] at hys
      cases hys
      rw [hobj x hx] at hfalse
      exact absurd hfalse (by simp)
    | some e => exact ⟨_, rfl⟩

/-- Witness for C11: two commits pushed to `refs/heads/main` of `o/r`. -/
theorem push_title_link_color_witness :
    ∃ e,
      [(⟨some 0x7289DA, some ⟨lit "", lit "https://github.com/", lit ""⟩,
          some (lit "[o/r:main] 2 new commits"), some (lit "https://x/compare"),
          some (lit "``  - \n``  - \n")⟩ : Embed)] = [e] ∧
      e.title = some (lit "[" ++ lit "o/r" ++ lit ":" ++ lit "main" ++ lit "] "
        ++ (fmtInt 2 ++ lit " new commits")) ∧
      e.url = some (lit "https://x/compare") ∧
      e.color = some 0x7289DA :=
  (by
    have h := push_title_link_color.2.1
      [(lit "ref", JVal.str (lit "refs/heads/main")),
       (lit "repository", JVal.obj [(lit "full_name", JVal.str (lit "o/r"))]),
       (lit "compare", JVal.str (lit "https://x/compare")),
       (lit "commits", JVal.arr [JVal.obj [], JVal.obj []])]
      [JVal.obj [], JVal.obj []]
      ⟨lit "", [⟨some 0x7289DA, some ⟨lit "", lit "https://github.com/", lit ""⟩,
          some (lit "[o/r:main] 2 new commits"), some (lit "https://x/compare"),
          some (lit "``  - \n``  - \n")⟩]⟩
      rfl (by decide)
    obtain ⟨e, he, ht, hu, hcol⟩ := h
    refine ⟨e, he, ?_, ?_, hcol⟩
    · rw [ht]
      decide
    · rw [hu]
      decide)

/-! ## Color of a pull request (C12) -/

/-- C12: for a pull-request payload that has a `pull_request` object the
translation completes and the color is 0x28A745 when the action is `opened` or
`reopened`, 0x6E7681 when it is `closed`, and 0xFF69B4 when the action is any
other string, is missing or is not a string. -/
theorem pull_request_color (payload pr : JObj)
    (hpr : mapIndex payload (lit "pull_request") = JVal.obj pr) :
    ∃ e, convertToDiscord (lit "pull_request") payload = some ⟨lit "", [e]⟩ ∧
      ((mapIndex payload (lit "action") = JVal.str (lit "opened") ∨
          mapIndex payload (lit "action") = JVal.str (lit "reopened")) →
        e.color = some 0x28A745) ∧
      (mapIndex payload (lit "action") = JVal.str (lit "closed") →
        e.color = some 0x6E7681) ∧
      ((∀ s, mapIndex payload (lit "action") = JVal.str s →
          s ≠ lit "opened" ∧ s ≠ lit "reopened" ∧ s ≠ lit "closed") →
        e.color = some 0xFF69B4) := by
  unfold convertToDiscord
  rw [dispatch_pull_request]
  unfold handlePullRequestEvent
  simp only [hpr]
  refine ⟨_, rfl, ?_, ?_, ?_⟩
  · intro h
    have ha : getStr payload [lit "action"] = lit "opened" ∨
        getStr payload [lit "action"] = lit "reopened" := by
      rw [getStr_single]
      rcases h with h | h <;> simp [h]
    simp only [ha, if_true]
  · intro h
    have ha : getStr payload [lit "action"] = lit "closed" := by
      rw [getStr_single]
      simp [h]
    have hne : ¬ (lit "closed" = lit "opened" ∨ lit "closed" = lit "reopened") := by
      decide
    simp only [ha, hne, if_false, if_true]
  · intro h
    have ha : getStr payload [lit "action"] ≠ lit "opened" ∧
        getStr payload [lit "action"] ≠ lit "reopened" ∧
        getStr payload [lit "action"] ≠ lit "closed" := by
      have e1 : ([] : GoString) ≠ lit "opened" := by decide
      have e2 : ([] : GoString) ≠ lit "reopened" := by decide
      have e3 : ([] : GoString) ≠ lit "closed" := by decide
      rw [getStr_single]
      cases hact : mapIndex payload (lit "action") with
      | str t => exact h t hact
      | null => exact ⟨e1, e2, e3⟩
      | bool b => exact ⟨e1, e2, e3⟩
      | num f => exact ⟨e1, e2, e3⟩
      | arr ys => exact ⟨e1, e2, e3⟩
      | obj m => exact ⟨e1, e2, e3⟩
    have h1 : ¬ (getStr payload [lit "action"] = lit "opened" ∨
        getStr payload [lit "action"] = lit "reopened") := by
      rintro (h1 | h1)
      · exact ha.1 h1
      · exact ha.2.1 h1
    simp only [h1, ha.2.2, if_false]

/-- Witness for C12: a payload whose action is `edited`, with an empty
`pull_request` object, is colored 0xFF69B4. -/
theorem pull_request_color_witness :
    ∃ e, convertToDiscord (lit "pull_request")
        [(lit "action", JVal.str (lit "edited")), (lit "pull_request", JVal.obj [])]
        = some ⟨lit "", [e]⟩ ∧ e.color = some 0xFF69B4 := by
  obtain ⟨e, he, _, _, hother⟩ := pull_request_color
    [(lit "action", JVal.str (lit "edited")), (lit "pull_request", JVal.obj [])] [] rfl
  refine ⟨e, he, hother ?_⟩
  intro t ht
  have ht2 : t = lit "edited" := by
    have h0 : mapIndex [(lit "action", JVal.str (lit "edited")),
        (lit "pull_request", JVal.obj [])] (lit "action") = JVal.str (lit "edited") := rfl
    rw [h0] at ht
    exact (JVal.str.inj ht).symm
  subst ht2
  exact ⟨by decide, by decide, by decide⟩

/-! ## Title and link of every embed (C13) -/

theorem handlePushEvent_title_url (payload : JObj) (e : Embed)
    (h : handlePushEvent Embed.empty payload = some e) :
    ∃ t u, e.title = some t ∧ e.url = some u := by
  unfold handlePushEvent at h
  split at h
  · dsimp only at h
    split at h
    · split at h
      · exact absurd h (by simp)
      · simp only [Option.some.injEq] at h
        subst h
        exact ⟨_, _, rfl, rfl⟩
    · simp only [Option.some.injEq] at h
      subst h
      exact ⟨_, _, rfl, rfl⟩
  · simp only [Option.some.injEq] at h
    subst h
    exact ⟨_, _, rfl, rfl⟩

theorem handlePullRequestEvent_title_url (payload : JObj) (e : Embed)
    (h : handlePullRequestEvent Embed.empty payload = some e) :
    ∃ t u, e.title = some t ∧ e.url = some u := by
  unfold handlePullRequestEvent at h
  split at h
  · simp only [Option.some.injEq] at h
    subst h
    exact ⟨_, _, rfl, rfl⟩
  · exact absurd h (by simp)

theorem handleIssuesEvent_title_url (payload : JObj) (e : Embed)
    (h : handleIssuesEvent Embed.empty payload = some e) :
    ∃ t u, e.title = some t ∧ e.url = some u := by
  unfold handleIssuesEvent at h
  split at h
  · simp only [Option.some.injEq] at h
    subst h
    exact ⟨_, _, rfl, rfl⟩
  · exact absurd h (by simp)

theorem handleIssueCommentEvent_title_url (payload : JObj) (e : Embed)
    (h : handleIssueCommentEvent Embed.empty payload = some e) :
    ∃ t u, e.title = some t ∧ e.url = some u := by
  unfold handleIssueCommentEvent at h
  split at h
  · split at h
    · simp only [Option.some.injEq] at h
      subst h
      exact ⟨_, _, rfl, rfl⟩
    · exact absurd h (by simp)
  · exact absurd h (by simp)

theorem handlePRReviewCommentEvent_title_url (payload : JObj) (e : Embed)
    (h : handlePRReviewCommentEvent Embed.empty payload = some e) :
    ∃ t u, e.title = some t ∧ e.url = some u := by
  unfold handlePRReviewCommentEvent at h
  split at h
  · split at h
    · simp only [Option.some.injEq] at h
      subst h
      exact ⟨_, _, rfl, rfl⟩
    · exact absurd h (by simp)
  · exact absurd h (by simp)

theorem handlePRReviewEvent_title_url (payload : JObj) (e : Embed)
    (h : handlePRReviewEvent Embed.empty payload = some e) :
    ∃ t u, e.title = some t ∧ e.url = some u := by
  unfold handlePRReviewEvent at h
  split at h
  · split at h
    · dsimp only at h
      split_ifs at h
      · simp only [Option.some.injEq] at h
        subst h
        exact ⟨_, _, rfl, rfl⟩
      · simp only [Option.some.injEq] at h
        subst h
        exact ⟨_, _, rfl, rfl⟩
    · exact absurd h (by simp)
  · exact absurd h (by simp)

theorem handleStarEvent_title_url (payload : JObj) (e : Embed)
    (h : handleStarEvent Embed.empty payload = some e) :
    ∃ t u, e.title = some t ∧ e.url = some u := by
  unfold handleStarEvent at h
  simp only [Option.some.injEq] at h
  subst h
  split_ifs
  · exact ⟨_, _, rfl, rfl⟩
  · exact ⟨_, _, rfl, rfl⟩

theorem handleForkEvent_title_url (payload : JObj) (e : Embed)
    (h : handleForkEvent Embed.empty payload = some e) :
    ∃ t u, e.title = some t ∧ e.url = some u := by
  unfold handleForkEvent at h
  split at h
  · simp only [Option.some.injEq] at h
    subst h
    exact ⟨_, _, rfl, rfl⟩
  · exact absurd h (by simp)

theorem handleCreateEvent_title_url (payload : JObj) (e : Embed)
    (h : handleCreateEvent Embed.empty payload = some e) :
    ∃ t u, e.title = some t ∧ e.url = some u := by
  unfold handleCreateEvent at h
  simp only [Option.some.injEq] at h
  subst h
  exact ⟨_, _, rfl, rfl⟩

theorem handleDeleteEvent_title_url (payload : JObj) (e : Embed)
    (h : handleDeleteEvent Embed.empty payload = some e) :
    ∃ t u, e.title = some t ∧ e.url = some u := by
  unfold handleDeleteEvent at h
  simp only [Option.some.injEq] at h
  subst h
  exact ⟨_, _, rfl, rfl⟩

theorem handleDefaultEvent_title_url (event : GoString) (payload : JObj) (e : Embed)
    (h : handleDefaultEvent Embed.empty event payload = some e) :
    ∃ t u, e.title = some t ∧ e.url = some u := by
  unfold handleDefaultEvent at h
  simp only [Option.some.injEq] at h
  subst h
  exact ⟨_, _, rfl, rfl⟩

theorem dispatch_cases (event : GoString) (embed : Embed) (payload : JObj) :
    dispatch event embed payload = handlePushEvent embed payload ∨
    dispatch event embed payload = handlePullRequestEvent embed payload ∨
    dispatch event embed payload = handleIssuesEvent embed payload ∨
    dispatch event embed payload = handleIssueCommentEvent embed payload ∨
    dispatch event embed payload = handlePRReviewCommentEvent embed payload ∨
    dispatch event embed payload = handlePRReviewEvent embed payload ∨
    dispatch event embed payload = handleStarEvent embed payload ∨
    dispatch event embed payload = handleForkEvent embed payload ∨
    dispatch event embed payload = handleCreateEvent embed payload ∨
    dispatch event embed payload = handleDeleteEvent embed payload ∨
    dispatch event embed payload = handleDefaultEvent embed event payload := by
  unfold dispatch
  by_cases h1 : event = lit "push"
  · rw [if_pos h1]
    exact Or.inl rfl
  rw [if_neg h1]
  by_cases h2 : event = lit "pull_request"
  · rw [if_pos h2]
    exact Or.inr (Or.inl rfl)
  rw [if_neg h2]
  by_cases h3 : event = lit "issues"
  · rw [if_pos h3]
    exact Or.inr (Or.inr (Or.inl rfl))
  rw [if_neg h3]
  by_cases h4 : event = lit "issue_comment"
  · rw [if_pos h4]
    exact Or.inr (Or.inr (Or.inr (Or.inl rfl)))
  rw [if_neg h4]
  by_cases h5 : event = lit "pull_request_review_comment"
  · rw [if_pos h5]
    exact Or.inr (Or.inr (Or.inr (Or.inr (Or.inl rfl))))
  rw [if_neg h5]
  by_cases h6 : event = lit "pull_request_review"
  · rw [if_pos h6]
    exact Or.inr (Or.inr (Or.inr (Or.inr (Or.inr (Or.inl rfl)))))
  rw [if_neg h6]
  by_cases h7 : event = lit "star"
  · rw [if_pos h7]
    exact Or.inr (Or.inr (Or.inr (Or.inr (Or.inr (Or.inr (Or.inl rfl))))))
  rw [if_neg h7]
  by_cases h8 : event = lit "fork"
  · rw [if_pos h8]
    exact Or.inr (Or.inr (Or.inr (Or.inr (Or.inr (Or.inr (Or.inr (Or.inl rfl)))))))
  rw [if_neg h8]
  by_cases h9 : event = lit "create"
  · rw [if_pos h9]
    exact Or.inr (Or.inr (Or.inr (Or.inr (Or.inr (Or.inr (Or.inr (Or.inr
      (Or.inl rfl))))))))
  rw [if_neg h9]
  by_cases h10 : event = lit "delete"
  · rw [if_pos h10]
    exact Or.inr (Or.inr (Or.inr (Or.inr (Or.inr (Or.inr (Or.inr (Or.inr
      (Or.inr (Or.inl rfl)))))))))
  rw [if_neg h10]
  exact Or.inr (Or.inr (Or.inr (Or.inr (Or.inr (Or.inr (Or.inr (Or.inr
    (Or.inr (Or.inr rfl)))))))))

theorem dispatch_title_url (event : GoString) (payload : JObj) (e : Embed)
    (h : dispatch event Embed.empty payload = some e) :
    ∃ t u, e.title = some t ∧ e.url = some u := by
  rcases dispatch_cases event Embed.empty payload with
    hd | hd | hd | hd | hd | hd | hd | hd | hd | hd | hd <;> rw [hd] at h
  · exact handlePushEvent_title_url payload e h
  · exact handlePullRequestEvent_title_url payload e h
  · exact handleIssuesEvent_title_url payload e h
  · exact handleIssueCommentEvent_title_url payload e h
  · exact handlePRReviewCommentEvent_title_url payload e h
  · exact handlePRReviewEvent_title_url payload e h
  · exact handleStarEvent_title_url payload e h
  · exact handleForkEvent_title_url payload e h
  · exact handleCreateEvent_title_url payload e h
  · exact handleDeleteEvent_title_url payload e h
  · exact handleDefaultEvent_title_url event payload e h

/-- C13: every message `convertToDiscord` returns, for any event kind and
payload, holds exactly one embed, and that embed has a title entry and a url
entry, both strings; but for the kind `fork` and an empty payload object the
handler panics, so no message and no embed is returned. -/
theorem returned_embed_has_title_and_url :
    convertToDiscord (lit "fork") [] = none ∧
    (∀ (event : GoString) (payload : JObj) (msg : DiscordMessage),
      convertToDiscord event payload = some msg →
      ∃ (e : Embed) (t u : GoString),
        msg.embeds = [e] ∧ e.title = some t ∧ e.url = some u) := by
  refine ⟨by decide, ?_⟩
  intro event payload msg hconv
  unfold convertToDiscord at hconv
  cases hdis : dispatch event Embed.empty payload with
  | none => simp [hdis] at hconv
  | some e =>
    simp only [hdis, Option.some.injEq] at hconv
    subst hconv
    obtain ⟨t, u, ht, hu⟩ := dispatch_title_url event payload e hdis
    exact ⟨e, t, u, rfl, ht, hu⟩

/-- Witness for C13: the unrecognized kind `watch` with an empty payload gives
the title `[] watch event` and the empty url. -/
theorem returned_embed_has_title_and_url_witness :
    ∃ (e : Embed) (t u : GoString),
      [(⟨none, some ⟨lit "", lit "", lit ""⟩, some (lit "[] watch event"),
        some (lit ""), none⟩ : Embed)] = [e] ∧ e.title = some t ∧ e.url = some u :=
  returned_embed_has_title_and_url.2 (lit "watch") []
    ⟨lit "", [⟨none, some ⟨lit "", lit "", lit ""⟩, some (lit "[] watch event"),
      some (lit ""), none⟩]⟩ (by decide)

/-! ## Classification of the delivery (C14) -/

/-- C14: when the message was serialized and the outbound POST completed with
status `s` and response body `b`, `sendToDiscord` returns an error exactly when
`s < 200` or `s ≥ 300`; the error message is `discord returned `, the status in
decimal, `: ` and the body; for `200 ≤ s < 300` it returns nil. -/
theorem sendToDiscord_classifies_status (w : World) (msg : DiscordMessage)
    (jsonData : GoString) (s : Int) (b : GoString)
    (hmarshal : w.jsonMarshal msg = Except.ok jsonData)
    (hpost : w.httpPost w.webhookURL (lit "application/json") jsonData
      = PostResult.response s b) :
    ((s < 200 ∨ s ≥ 300) →
      sendToDiscord w msg = some (lit "discord returned " ++ fmtInt s ++ lit ": " ++ b)) ∧
    ((200 ≤ s ∧ s < 300) → sendToDiscord w msg = none) ∧
    (sendToDiscord w msg ≠ none ↔ (s < 200 ∨ s ≥ 300)) := by
  unfold sendToDiscord
  simp only [hmarshal, hpost]
  by_cases hs : s < 200 ∨ s ≥ 300
  · rw [if_pos hs]
    exact ⟨fun _ => rfl, fun hin => absurd hs (by omega),
      ⟨fun _ => hs, fun _ => by simp⟩⟩
  · rw [if_neg hs]
    exact ⟨fun h => absurd h hs, fun _ => rfl,
      ⟨fun h => absurd rfl h, fun h => absurd h hs⟩⟩

/-- Witness for C14: status 400 with body `x` gives the error
`discord returned 400: x`, and status 204 gives nil. -/
theorem sendToDiscord_classifies_status_witness :
    sendToDiscord (sampleWorld 400) ⟨lit "", []⟩ = some (lit "discord returned 400: x") ∧
    sendToDiscord (sampleWorld 204) ⟨lit "", []⟩ = none :=
  ⟨((sendToDiscord_classifies_status (sampleWorld 400) ⟨lit "", []⟩ (lit "\x7b\x7d") 400
      (lit "x") rfl rfl).1 (by decide)).trans (by decide),
   (sendToDiscord_classifies_status (sampleWorld 204) ⟨lit "", []⟩ (lit "\x7b\x7d") 204
      (lit "x") rfl rfl).2.1 (by decide)⟩

/-! ## The health path (C15) -/

/-- C15: `main` registers the patterns `/webhook` and `/` only; `handleHealth`,
which would answer 200 `OK`, is defined but registered nowhere.  A request for
the path `/health` is therefore routed to `handleRoot`, which answers 404
`404 page not found` for every path other than `/`, whatever the method. -/
theorem health_path_is_not_found (w : World) (r : Request) :
    muxHandler mainRoutes (lit "/health") = some (lit "/", Handler.handleRoot) ∧
    (serve w (lit "/health") r).response = some ⟨404, lit "404 page not found\n"⟩ ∧
    (serve w (lit "/health")
        ⟨lit "GET", lit "", lit "", some (lit "")⟩).response
      ≠ some handleHealth ∧
    handleHealth = ⟨200, lit "OK"⟩ ∧
    (∀ entry ∈ mainRoutes, entry.2 ≠ Handler.handleHealth) := by
  have hmux : muxHandler mainRoutes (lit "/health")
      = some (lit "/", Handler.handleRoot) := by decide
  have hroot : handleRoot (lit "/health") = ⟨404, lit "404 page not found\n"⟩ := by
    decide
  have hserve : ∀ q : Request, (serve w (lit "/health") q).response
      = some ⟨404, lit "404 page not found\n"⟩ := by
    intro q
    unfold serve
    rw [hmux]
    simp only [hroot]
  refine ⟨hmux, hserve r, ?_, by decide, by decide⟩
  rw [hserve]
  decide

/-! ## Review events (C16) -/

theorem dispatch_review (embed : Embed) (payload : JObj) :
    dispatch (lit "pull_request_review") embed payload
      = handlePRReviewEvent embed payload := by
  unfold dispatch
  rw [if_neg (by decide), if_neg (by decide), if_neg (by decide), if_neg (by decide),
    if_neg (by decide), if_pos rfl]

/-- C16, counterexample: a review whose body is 101 times the character `é`
has 101 characters, at most 200, yet its description is cut to the first 200
of its 202 bytes, that is 100 characters, followed by `...`. -/
theorem review_of_101_characters_is_cut :
    (String.mk (List.replicate 101 'é')).length = 101 ∧
    descriptionOf (convertToDiscord (lit "pull_request_review")
        [(lit "pull_request", JVal.obj []),
         (lit "review", JVal.obj
            [(lit "body", JVal.str (lit (String.mk (List.replicate 101 'é'))))])])
      = some (lit (String.mk (List.replicate 100 'é') ++ "...")) ∧
    lit (String.mk (List.replicate 100 'é') ++ "...")
      ≠ lit (String.mk (List.replicate 101 'é')) := by
  refine ⟨by decide, by decide, by decide⟩

theorem goInt_of_int64 (f : Rat)
    (h : -9223372036854775808 ≤ f.num.tdiv f.den ∧
      f.num.tdiv f.den ≤ 9223372036854775807) :
    goInt f = f.num.tdiv f.den := by
  unfold goInt
  simp only [h, and_self, if_true]

theorem handlePRReviewEvent_embed (payload pr review : JObj)
    (hpr : mapIndex payload (lit "pull_request") = JVal.obj pr)
    (hreview : mapIndex payload (lit "review") = JVal.obj review) :
    ∃ e, convertToDiscord (lit "pull_request_review") payload = some ⟨lit "", [e]⟩ ∧
      e.color = some 0x90EE90 ∧
      e.title = some (lit "[" ++ getStr payload [lit "repository", lit "full_name"]
        ++ lit "] Pull request review " ++ getStr review [lit "state"] ++ lit " on #"
        ++ fmtInt (goInt (getFloat pr [lit "number"])) ++ lit ": "
        ++ getStr pr [lit "title"]) ∧
      ((∃ d, e.description = some d) ↔
        ∃ body, mapIndex review (lit "body") = JVal.str body ∧ body ≠ []) ∧
      (∀ body, mapIndex review (lit "body") = JVal.str body → body ≠ [] →
        e.description = some (if body.length ≤ 200 then body
          else body.take 200 ++ lit "...")) := by
  have hlit : lit "" = [] := rfl
  have hbody : getStr review [lit "body"] =
      match mapIndex review (lit "body") with
      | JVal.str t => t
      | _ => [] := getStr_single review (lit "body")
  unfold convertToDiscord
  rw [dispatch_review]
  unfold handlePRReviewEvent
  simp only [hpr, hreview]
  by_cases hb : getStr review [lit "body"] = lit ""
  · simp only [hb, ne_eq, not_true_eq_false, if_false]
    refine ⟨_, rfl, rfl, rfl, ?_, ?_⟩
    · constructor
      · rintro ⟨d, hd⟩
        exact absurd hd (by simp [Embed.empty])
      · rintro ⟨body, hm, hne⟩
        rw [hbody, hm, hlit] at hb
        exact absurd hb hne
    · intro body hm hne
      rw [hbody, hm, hlit] at hb
      exact absurd hb hne
  · simp only [ne_eq, hb, not_false_eq_true, if_true]
    refine ⟨_, rfl, rfl, rfl, ?_, ?_⟩
    · constructor
      · intro _
        cases hm : mapIndex review (lit "body") with
        | str t =>
          refine ⟨t, rfl, ?_⟩
          intro ht
          rw [hbody, hm, hlit] at hb
          exact hb ht
        | null => rw [hbody, hm] at hb; exact absurd hlit.symm hb
        | bool b => rw [hbody, hm] at hb; exact absurd hlit.symm hb
        | num f => rw [hbody, hm] at hb; exact absurd hlit.symm hb
        | arr ys => rw [hbody, hm] at hb; exact absurd hlit.symm hb
        | obj m => rw [hbody, hm] at hb; exact absurd hlit.symm hb
      · intro _
        exact ⟨_, rfl⟩
    · intro body hm _
      have hb2 : getStr review [lit "body"] = body := by rw [hbody, hm]
      simp only [hb2, truncateBody_eq]

/-- C16, amended: for a review payload that has `pull_request` and `review`
objects the translation completes with color 0x90EE90; when the number of the
pull request, truncated toward zero, lies in the range of `int64`, the title is
`[repo] Pull request review state on #n: title` with that truncated number as
`n`; the embed has a description exactly when `review.body` is a non-empty
string, and the description then is the body unchanged when it has at most 200
bytes and its first 200 bytes followed by `...` when it has more. -/
theorem review_embed_description (payload pr review : JObj)
    (hpr : mapIndex payload (lit "pull_request") = JVal.obj pr)
    (hreview : mapIndex payload (lit "review") = JVal.obj review) :
    ∃ e, convertToDiscord (lit "pull_request_review") payload = some ⟨lit "", [e]⟩ ∧
      e.color = some 0x90EE90 ∧
      ((-9223372036854775808 ≤
            (getFloat pr [lit "number"]).num.tdiv (getFloat pr [lit "number"]).den ∧
          (getFloat pr [lit "number"]).num.tdiv (getFloat pr [lit "number"]).den
            ≤ 9223372036854775807) →
        e.title = some (lit "[" ++ getStr payload [lit "repository", lit "full_name"]
          ++ lit "] Pull request review " ++ getStr review [lit "state"] ++ lit " on #"
          ++ fmtInt ((getFloat pr [lit "number"]).num.tdiv
              (getFloat pr [lit "number"]).den)
          ++ lit ": " ++ getStr pr [lit "title"])) ∧
      ((∃ d, e.description = some d) ↔
        ∃ body, mapIndex review (lit "body") = JVal.str body ∧ body ≠ []) ∧
      (∀ body, mapIndex review (lit "body") = JVal.str body → body ≠ [] →
        e.description = some (if body.length ≤ 200 then body
          else body.take 200 ++ lit "...")) := by
  obtain ⟨e, he, hcolor, htitle, hpresent, hdesc⟩ :=
    handlePRReviewEvent_embed payload pr review hpr hreview
  refine ⟨e, he, hcolor, ?_, hpresent, hdesc⟩
  intro hrange
  rw [htitle, goInt_of_int64 _ hrange]

/-- Witness for C16: an approving review with body `ok` on pull request 7. -/
theorem review_embed_description_witness :
    ∃ e, convertToDiscord (lit "pull_request_review")
        [(lit "pull_request", JVal.obj [(lit "number", JVal.num 7)]),
         (lit "review", JVal.obj [(lit "state", JVal.str (lit "approved")),
            (lit "body", JVal.str (lit "ok"))])]
        = some ⟨lit "", [e]⟩ ∧
      e.title = some (lit "[] Pull request review approved on #7: ") ∧
      e.description = some (lit "ok") := by
  obtain ⟨e, he, _, ht, _, hd⟩ := review_embed_description
    [(lit "pull_request", JVal.obj [(lit "number", JVal.num 7)]),
     (lit "review", JVal.obj [(lit "state", JVal.str (lit "approved")),
        (lit "body", JVal.str (lit "ok"))])]
    [(lit "number", JVal.num 7)]
    [(lit "state", JVal.str (lit "approved")), (lit "body", JVal.str (lit "ok"))]
    rfl rfl
  refine ⟨e, he, ?_, ?_⟩
  · rw [ht (by decide)]
    decide
  · rw [hd (lit "ok") rfl (by decide)]
    decide

/-! ## Author block (C17) -/

theorem getStr_nested (payload : JObj) (key : GoString) (m : JObj) (keys : List GoString)
    (h : mapIndex payload key = JVal.obj m) :
    getStr payload (key :: keys) = getStr m keys := by
  unfold getStr
  rw [getStrFrom, h]

theorem dispatch_issues (embed : Embed) (payload : JObj) :
    dispatch (lit "issues") embed payload = handleIssuesEvent embed payload := by
  unfold dispatch
  rw [if_neg (by decide), if_neg (by decide), if_pos rfl]

theorem dispatch_fork (embed : Embed) (payload : JObj) :
    dispatch (lit "fork") embed payload = handleForkEvent embed payload := by
  unfold dispatch
  rw [if_neg (by decide), if_neg (by decide), if_neg (by decide), if_neg (by decide),
    if_neg (by decide), if_neg (by decide), if_neg (by decide), if_pos rfl]

theorem dispatch_sender_kinds (event : GoString) (embed : Embed) (payload : JObj)
    (h1 : event ≠ lit "push") (h2 : event ≠ lit "pull_request")
    (h3 : event ≠ lit "issues") (h4 : event ≠ lit "issue_comment")
    (h5 : event ≠ lit "pull_request_review_comment")
    (h6 : event ≠ lit "pull_request_review") :
    dispatch event embed payload = handleStarEvent embed payload ∨
    (event = lit "fork" ∧ dispatch event embed payload = handleForkEvent embed payload) ∨
    dispatch event embed payload = handleCreateEvent embed payload ∨
    dispatch event embed payload = handleDeleteEvent embed payload ∨
    dispatch event embed payload = handleDefaultEvent embed event payload := by
  unfold dispatch
  rw [if_neg h1, if_neg h2, if_neg h3, if_neg h4, if_neg h5, if_neg h6]
  by_cases h7 : event = lit "star"
  · rw [if_pos h7]
    exact Or.inl rfl
  rw [if_neg h7]
  by_cases h8 : event = lit "fork"
  · rw [if_pos h8]
    exact Or.inr (Or.inl ⟨h8, rfl⟩)
  rw [if_neg h8]
  by_cases h9 : event = lit "create"
  · rw [if_pos h9]
    exact Or.inr (Or.inr (Or.inl rfl))
  rw [if_neg h9]
  by_cases h10 : event = lit "delete"
  · rw [if_pos h10]
    exact Or.inr (Or.inr (Or.inr (Or.inl rfl)))
  rw [if_neg h10]
  exact Or.inr (Or.inr (Or.inr (Or.inr rfl)))

theorem convertToDiscord_some (event : GoString) (payload : JObj) (msg : DiscordMessage)
    (h : convertToDiscord event payload = some msg) :
    ∃ e, dispatch event Embed.empty payload = some e ∧ msg = ⟨lit "", [e]⟩ := by
  unfold convertToDiscord at h
  cases hdis : dispatch event Embed.empty payload with
  | none => simp [hdis] at h
  | some e =>
    simp only [hdis, Option.some.injEq] at h
    exact ⟨e, rfl, h.symm⟩

theorem handlePushEvent_author (payload : JObj) (e : Embed)
    (h : handlePushEvent Embed.empty payload = some e) :
    e.author = some ⟨getStr payload [lit "pusher", lit "name"],
      lit "https://github.com/" ++ getStr payload [lit "pusher", lit "name"],
      getStr payload [lit "sender", lit "avatar_url"]⟩ := by
  unfold handlePushEvent at h
  split at h
  · dsimp only at h
    split at h
    · split at h
      · exact absurd h (by simp)
      · simp only [Option.some.injEq] at h
        subst h
        rfl
    · simp only [Option.some.injEq] at h
      subst h
      rfl
  · simp only [Option.some.injEq] at h
    subst h
    rfl

theorem handlePullRequestEvent_author (payload : JObj) (e : Embed)
    (h : handlePullRequestEvent Embed.empty payload = some e) :
    e.author = some ⟨getStr payload [lit "pull_request", lit "user", lit "login"],
      getStr payload [lit "pull_request", lit "user", lit "html_url"],
      getStr payload [lit "pull_request", lit "user", lit "avatar_url"]⟩ := by
  unfold handlePullRequestEvent at h
  cases hm : mapIndex payload (lit "pull_request") with
  | obj pr =>
    simp only [hm, Option.some.injEq] at h
    subst h
    simp only [getStr_nested payload _ pr _ hm]
  | null => simp [hm] at h
  | bool b => simp [hm] at h
  | num f => simp [hm] at h
  | str t => simp [hm] at h
  | arr ys => simp [hm] at h

theorem handleIssuesEvent_author (payload : JObj) (e : Embed)
    (h : handleIssuesEvent Embed.empty payload = some e) :
    e.author = some ⟨getStr payload [lit "issue", lit "user", lit "login"],
      getStr payload [lit "issue", lit "user", lit "html_url"],
      getStr payload [lit "issue", lit "user", lit "avatar_url"]⟩ := by
  unfold handleIssuesEvent at h
  cases hm : mapIndex payload (lit "issue") with
  | obj issue =>
    simp only [hm, Option.some.injEq] at h
    subst h
    simp only [getStr_nested payload _ issue _ hm]
  | null => simp [hm] at h
  | bool b => simp [hm] at h
  | num f => simp [hm] at h
  | str t => simp [hm] at h
  | arr ys => simp [hm] at h

theorem handleIssueCommentEvent_author (payload : JObj) (e : Embed)
    (h : handleIssueCommentEvent Embed.empty payload = some e) :
    e.author = some ⟨getStr payload [lit "comment", lit "user", lit "login"],
      getStr payload [lit "comment", lit "user", lit "html_url"],
      getStr payload [lit "comment", lit "user", lit "avatar_url"]⟩ := by
  unfold handleIssueCommentEvent at h
  cases hm1 : mapIndex payload (lit "issue") with
  | obj m1 =>
    cases hm2 : mapIndex payload (lit "comment") with
    | obj m2 =>
      simp only [hm1, hm2] at h
      simp only [Option.some.injEq] at h
      subst h
      simp only [getStr_nested payload _ m2 _ hm2]
    | _ => simp [hm1, hm2] at h
  | _ => simp [hm1] at h

theorem handlePRReviewCommentEvent_author (payload : JObj) (e : Embed)
    (h : handlePRReviewCommentEvent Embed.empty payload = some e) :
    e.author = some ⟨getStr payload [lit "comment", lit "user", lit "login"],
      getStr payload [lit "comment", lit "user", lit "html_url"],
      getStr payload [lit "comment", lit "user", lit "avatar_url"]⟩ := by
  unfold handlePRReviewCommentEvent at h
  cases hm1 : mapIndex payload (lit "pull_request") with
  | obj m1 =>
    cases hm2 : mapIndex payload (lit "comment") with
    | obj m2 =>
      simp only [hm1, hm2] at h
      simp only [Option.some.injEq] at h
      subst h
      simp only [getStr_nested payload _ m2 _ hm2]
    | _ => simp [hm1, hm2] at h
  | _ => simp [hm1] at h

theorem handlePRReviewEvent_author (payload : JObj) (e : Embed)
    (h : handlePRReviewEvent Embed.empty payload = some e) :
    e.author = some ⟨getStr payload [lit "review", lit "user", lit "login"],
      getStr payload [lit "review", lit "user", lit "html_url"],
      getStr payload [lit "review", lit "user", lit "avatar_url"]⟩ := by
  unfold handlePRReviewEvent at h
  cases hm1 : mapIndex payload (lit "pull_request") with
  | obj m1 =>
    cases hm2 : mapIndex payload (lit "review") with
    | obj m2 =>
      simp only [hm1, hm2] at h
      split_ifs at h
      · simp only [Option.some.injEq] at h
        subst h
        simp only [getStr_nested payload _ m2 _ hm2]
      · simp only [Option.some.injEq] at h
        subst h
        simp only [getStr_nested payload _ m2 _ hm2]
    | _ => simp [hm1, hm2] at h
  | _ => simp [hm1] at h

theorem handleStarEvent_author (payload : JObj) (e : Embed)
    (h : handleStarEvent Embed.empty payload = some e) :
    e.author = some ⟨getStr payload [lit "sender", lit "login"],
      getStr payload [lit "sender", lit "html_url"],
      getStr payload [lit "sender", lit "avatar_url"]⟩ := by
  unfold handleStarEvent at h
  simp only [Option.some.injEq] at h
  subst h
  split_ifs <;> rfl

theorem handleCreateEvent_author (payload : JObj) (e : Embed)
    (h : handleCreateEvent Embed.empty payload = some e) :
    e.author = some ⟨getStr payload [lit "sender", lit "login"],
      getStr payload [lit "sender", lit "html_url"],
      getStr payload [lit "sender", lit "avatar_url"]⟩ := by
  unfold handleCreateEvent at h
  simp only [Option.some.injEq] at h
  subst h
  rfl

theorem handleDeleteEvent_author (payload : JObj) (e : Embed)
    (h : handleDeleteEvent Embed.empty payload = some e) :
    e.author = some ⟨getStr payload [lit "sender", lit "login"],
      getStr payload [lit "sender", lit "html_url"],
      getStr payload [lit "sender", lit "avatar_url"]⟩ := by
  unfold handleDeleteEvent at h
  simp only [Option.some.injEq] at h
  subst h
  rfl

theorem handleDefaultEvent_author (event : GoString) (payload : JObj) (e : Embed)
    (h : handleDefaultEvent Embed.empty event payload = some e) :
    e.author = some ⟨getStr payload [lit "sender", lit "login"],
      getStr payload [lit "sender", lit "html_url"],
      getStr payload [lit "sender", lit "avatar_url"]⟩ := by
  unfold handleDefaultEvent at h
  simp only [Option.some.injEq] at h
  subst h
  rfl

theorem handleForkEvent_author (payload : JObj) (e : Embed)
    (h : handleForkEvent Embed.empty payload = some e) :
    e.author = some ⟨getStr payload [lit "sender", lit "login"],
      getStr payload [lit "sender", lit "html_url"],
      getStr payload [lit "sender", lit "avatar_url"]⟩ := by
  unfold handleForkEvent at h
  cases hm : mapIndex payload (lit "forkee") with
  | obj forkee =>
    simp only [hm, Option.some.injEq] at h
    subst h
    rfl
  | _ => simp [hm] at h

/-- C17, counterexample: two push payloads carry the same `pusher` object (with
its own `html_url` and `avatar_url`) and differ in `sender.avatar_url` only, yet
their author blocks differ: the icon is read from the `sender` object, and the
url is neither field of the pusher but `https://github.com/` followed by the
pusher name. -/
theorem push_author_is_not_from_pusher_alone :
    mapIndex
        [(lit "pusher", JVal.obj [(lit "name", JVal.str (lit "alice")),
            (lit "html_url", JVal.str (lit "https://example.org/alice")),
            (lit "avatar_url", JVal.str (lit "https://example.org/alice.png"))]),
         (lit "sender", JVal.obj [(lit "avatar_url", JVal.str (lit "https://example.org/s.png"))])]
        (lit "pusher")
      = mapIndex
        [(lit "pusher", JVal.obj [(lit "name", JVal.str (lit "alice")),
            (lit "html_url", JVal.str (lit "https://example.org/alice")),
            (lit "avatar_url", JVal.str (lit "https://example.org/alice.png"))]),
         (lit "sender", JVal.obj [(lit "avatar_url", JVal.str (lit "https://example.org/t.png"))])]
        (lit "pusher") ∧
    (embedOf (convertToDiscord (lit "push")
        [(lit "pusher", JVal.obj [(lit "name", JVal.str (lit "alice")),
            (lit "html_url", JVal.str (lit "https://example.org/alice")),
            (lit "avatar_url", JVal.str (lit "https://example.org/alice.png"))]),
         (lit "sender", JVal.obj [(lit "avatar_url", JVal.str (lit "https://example.org/s.png"))])])).bind
        (fun e => e.author)
      = some ⟨lit "alice", lit "https://github.com/alice", lit "https://example.org/s.png"⟩ ∧
    (embedOf (convertToDiscord (lit "push")
        [(lit "pusher", JVal.obj [(lit "name", JVal.str (lit "alice")),
            (lit "html_url", JVal.str (lit "https://example.org/alice")),
            (lit "avatar_url", JVal.str (lit "https://example.org/alice.png"))]),
         (lit "sender", JVal.obj [(lit "avatar_url", JVal.str (lit "https://example.org/t.png"))])])).bind
        (fun e => e.author)
      = some ⟨lit "alice", lit "https://github.com/alice", lit "https://example.org/t.png"⟩ ∧
    lit "https://example.org/s.png" ≠ lit "https://example.org/t.png" := by
  refine ⟨rfl, by decide, by decide, by decide⟩

/-- C17, amended: whenever `convertToDiscord` completes, the embed has an author
block with name, url and icon_url.  For code-push the name is `pusher.name`,
the url is `https://github.com/` followed by `pusher.name` and the icon is
`sender.avatar_url`.  For every other kind the three values are the `login`,
`html_url` and `avatar_url` of one actor object: `pull_request.user`,
`issue.user`, `comment.user` (both comment kinds), `review.user`, and `sender`
for star, fork, ref-created, ref-deleted and every unrecognized kind. -/
theorem author_block_sources (payload : JObj) :
    (∀ msg, convertToDiscord (lit "push") payload = some msg →
      ∃ e, msg.embeds = [e] ∧
        e.author = some ⟨getStr payload [lit "pusher", lit "name"],
          lit "https://github.com/" ++ getStr payload [lit "pusher", lit "name"],
          getStr payload [lit "sender", lit "avatar_url"]⟩) ∧
    (∀ msg, convertToDiscord (lit "pull_request") payload = some msg →
      ∃ e, msg.embeds = [e] ∧
        e.author = some ⟨getStr payload [lit "pull_request", lit "user", lit "login"],
          getStr payload [lit "pull_request", lit "user", lit "html_url"],
          getStr payload [lit "pull_request", lit "user", lit "avatar_url"]⟩) ∧
    (∀ msg, convertToDiscord (lit "issues") payload = some msg →
      ∃ e, msg.embeds = [e] ∧
        e.author = some ⟨getStr payload [lit "issue", lit "user", lit "login"],
          getStr payload [lit "issue", lit "user", lit "html_url"],
          getStr payload [lit "issue", lit "user", lit "avatar_url"]⟩) ∧
    (∀ msg, convertToDiscord (lit "issue_comment") payload = some msg →
      ∃ e, msg.embeds = [e] ∧
        e.author = some ⟨getStr payload [lit "comment", lit "user", lit "login"],
          getStr payload [lit "comment", lit "user", lit "html_url"],
          getStr payload [lit "comment", lit "user", lit "avatar_url"]⟩) ∧
    (∀ msg, convertToDiscord (lit "pull_request_review_comment") payload = some msg →
      ∃ e, msg.embeds = [e] ∧
        e.author = some ⟨getStr payload [lit "comment", lit "user", lit "login"],
          getStr payload [lit "comment", lit "user", lit "html_url"],
          getStr payload [lit "comment", lit "user", lit "avatar_url"]⟩) ∧
    (∀ msg, convertToDiscord (lit "pull_request_review") payload = some msg →
      ∃ e, msg.embeds = [e] ∧
        e.author = some ⟨getStr payload [lit "review", lit "user", lit "login"],
          getStr payload [lit "review", lit "user", lit "html_url"],
          getStr payload [lit "review", lit "user", lit "avatar_url"]⟩) ∧
    (∀ event msg, event ≠ lit "push" → event ≠ lit "pull_request" →
      event ≠ lit "issues" → event ≠ lit "issue_comment" →
      event ≠ lit "pull_request_review_comment" → event ≠ lit "pull_request_review" →
      convertToDiscord event payload = some msg →
      ∃ e, msg.embeds = [e] ∧
        e.author = some ⟨getStr payload [lit "sender", lit "login"],
          getStr payload [lit "sender", lit "html_url"],
          getStr payload [lit "sender", lit "avatar_url"]⟩) := by
  refine ⟨?_, ?_, ?_, ?_, ?_, ?_, ?_⟩
  · intro msg hconv
    obtain ⟨e, hdis, hmsg⟩ := convertToDiscord_some _ payload msg hconv
    rw [dispatch_push] at hdis
    exact ⟨e, by rw [hmsg], handlePushEvent_author payload e hdis⟩
  · intro msg hconv
    obtain ⟨e, hdis, hmsg⟩ := convertToDiscord_some _ payload msg hconv
    rw [dispatch_pull_request] at hdis
    exact ⟨e, by rw [hmsg], handlePullRequestEvent_author payload e hdis⟩
  · intro msg hconv
    obtain ⟨e, hdis, hmsg⟩ := convertToDiscord_some _ payload msg hconv
    rw [dispatch_issues] at hdis
    exact ⟨e, by rw [hmsg], handleIssuesEvent_author payload e hdis⟩
  · intro msg hconv
    obtain ⟨e, hdis, hmsg⟩ := convertToDiscord_some _ payload msg hconv
    rw [dispatch_issue_comment] at hdis
    exact ⟨e, by rw [hmsg], handleIssueCommentEvent_author payload e hdis⟩
  · intro msg hconv
    obtain ⟨e, hdis, hmsg⟩ := convertToDiscord_some _ payload msg hconv
    rw [dispatch_review_comment] at hdis
    exact ⟨e, by rw [hmsg], handlePRReviewCommentEvent_author payload e hdis⟩
  · intro msg hconv
    obtain ⟨e, hdis, hmsg⟩ := convertToDiscord_some _ payload msg hconv
    rw [dispatch_review] at hdis
    exact ⟨e, by rw [hmsg], handlePRReviewEvent_author payload e hdis⟩
  · intro event msg h1 h2 h3 h4 h5 h6 hconv
    obtain ⟨e, hdis, hmsg⟩ := convertToDiscord_some _ payload msg hconv
    refine ⟨e, by rw [hmsg], ?_⟩
    rcases dispatch_sender_kinds event Embed.empty payload h1 h2 h3 h4 h5 h6 with
      hd | ⟨_, hd⟩ | hd | hd | hd <;> rw [hd] at hdis
    · exact handleStarEvent_author payload e hdis
    · exact handleForkEvent_author payload e hdis
    · exact handleCreateEvent_author payload e hdis
    · exact handleDeleteEvent_author payload e hdis
    · exact handleDefaultEvent_author event payload e hdis

/-- Witness for C17: a star event sent by `bob`. -/
theorem author_block_sources_witness :
    ∃ e,
      [(⟨none, some ⟨lit "bob", lit "https://github.com/bob", lit "https://a/b.png"⟩,
        some (lit "[] New star"), some (lit ""), none⟩ : Embed)] = [e] ∧
      e.author = some ⟨lit "bob", lit "https://github.com/bob", lit "https://a/b.png"⟩ := by
  obtain ⟨e, he, ha⟩ := (author_block_sources
    [(lit "action", JVal.str (lit "created")),
     (lit "sender", JVal.obj [(lit "login", JVal.str (lit "bob")),
        (lit "html_url", JVal.str (lit "https://github.com/bob")),
        (lit "avatar_url", JVal.str (lit "https://a/b.png"))])]).2.2.2.2.2.2
    (lit "star")
    ⟨lit "", [⟨none, some ⟨lit "bob", lit "https://github.com/bob", lit "https://a/b.png"⟩,
        some (lit "[] New star"), some (lit ""), none⟩]⟩
    (by decide) (by decide) (by decide) (by decide) (by decide) (by decide) (by decide)
  refine ⟨e, he, ?_⟩
  rw [ha]
  decide

/-! ## Field lookups (C18) -/

theorem getStrFrom_null (keys : List GoString) : getStrFrom JVal.null keys = [] := by
  cases keys <;> simp [getStrFrom]

theorem getFloatFrom_null (keys : List GoString) : getFloatFrom JVal.null keys = 0 := by
  cases keys <;> simp [getFloatFrom]

theorem getStrFrom_eq_valueAtPath (v : JVal) (keys : List GoString) :
    getStrFrom v keys =
      match valueAtPath v keys with
      | some (JVal.str s) => s
      | _ => [] := by
  induction keys generalizing v with
  | nil => cases v <;> simp [getStrFrom, valueAtPath]
  | cons key rest ih =>
    cases v with
    | obj m =>
      rw [getStrFrom, valueAtPath, mapIndex]
      cases hl : m.lookup key with
      | none => simp [getStrFrom_null]
      | some x => simpa using ih x
    | null => simp [getStrFrom, valueAtPath]
    | bool b => simp [getStrFrom, valueAtPath]
    | num f => simp [getStrFrom, valueAtPath]
    | str t => simp [getStrFrom, valueAtPath]
    | arr ys => simp [getStrFrom, valueAtPath]

theorem getFloatFrom_eq_valueAtPath (v : JVal) (keys : List GoString) :
    getFloatFrom v keys =
      match valueAtPath v keys with
      | some (JVal.num f) => f
      | _ => 0 := by
  induction keys generalizing v with
  | nil => cases v <;> simp [getFloatFrom, valueAtPath]
  | cons key rest ih =>
    cases v with
    | obj m =>
      rw [getFloatFrom, valueAtPath, mapIndex]
      cases hl : m.lookup key with
      | none => simp [getFloatFrom_null]
      | some x => simpa using ih x
    | null => simp [getFloatFrom, valueAtPath]
    | bool b => simp [getFloatFrom, valueAtPath]
    | num f => simp [getFloatFrom, valueAtPath]
    | str t => simp [getFloatFrom, valueAtPath]
    | arr ys => simp [getFloatFrom, valueAtPath]

theorem dispatch_default (event : GoString) (embed : Embed) (payload : JObj)
    (h : event ∉ recognizedKinds) :
    dispatch event embed payload = handleDefaultEvent embed event payload := by
  simp only [recognizedKinds, List.mem_cons, List.mem_singleton, not_or,
    List.not_mem_nil, not_false_eq_true, and_true] at h
  obtain ⟨h1, h2, h3, h4, h5, h6, h7, h8, h9, h10⟩ := h
  unfold dispatch
  rw [if_neg h1, if_neg h2, if_neg h3, if_neg h4, if_neg h5, if_neg h6, if_neg h7,
    if_neg h8, if_neg h9, if_neg h10]

/-- C18: `getStr` returns the string found at the key path when every step
lands on an object holding the key and the value reached is a string, and the
empty string in every other case; `getFloat` likewise returns the number
reached or 0; both are total functions.  In particular, for an unrecognized
kind and a payload in which `repository.full_name` is not a string (missing or
mistyped), the translation completes with the title `[] kind event`. -/
theorem getStr_getFloat_defaults :
    (∀ (data : JObj) (keys : List GoString),
      getStr data keys =
        match valueAtPath (JVal.obj data) keys with
        | some (JVal.str s) => s
        | _ => []) ∧
    (∀ (data : JObj) (keys : List GoString),
      getFloat data keys =
        match valueAtPath (JVal.obj data) keys with
        | some (JVal.num f) => f
        | _ => 0) ∧
    (∀ (event : GoString) (payload : JObj), event ∉ recognizedKinds →
      (∀ s, valueAtPath (JVal.obj payload) [lit "repository", lit "full_name"]
        ≠ some (JVal.str s)) →
      ∃ e, convertToDiscord event payload = some ⟨lit "", [e]⟩ ∧
        e.title = some (lit "[] " ++ event ++ lit " event")) := by
  refine ⟨fun data keys => getStrFrom_eq_valueAtPath (JVal.obj data) keys,
    fun data keys => getFloatFrom_eq_valueAtPath (JVal.obj data) keys, ?_⟩
  intro event payload hkind hrepo
  have hempty : getStr payload [lit "repository", lit "full_name"] = [] := by
    unfold getStr
    rw [getStrFrom_eq_valueAtPath]
    cases hv : valueAtPath (JVal.obj payload) [lit "repository", lit "full_name"] with
    | none => rfl
    | some x =>
      cases x with
      | str t => exact absurd hv (hrepo t)
      | null => rfl
      | bool b => rfl
      | num f => rfl
      | arr ys => rfl
      | obj m => rfl
  have hpre : lit "[" ++ ([] : GoString) ++ lit "] " = lit "[] " := by decide
  unfold convertToDiscord
  rw [dispatch_default event Embed.empty payload hkind]
  unfold handleDefaultEvent
  simp only [hempty]
  refine ⟨_, rfl, ?_⟩
  simp only [hpre]

/-- Witness for C18: the kind `watch` on a payload whose `repository` is a
string, so that the path `repository.full_name` meets a non-object. -/
theorem getStr_getFloat_defaults_witness :
    ∃ e, convertToDiscord (lit "watch") [(lit "repository", JVal.str (lit "o/r"))]
        = some ⟨lit "", [e]⟩ ∧
      e.title = some (lit "[] " ++ lit "watch" ++ lit " event") :=
  getStr_getFloat_defaults.2.2 (lit "watch") [(lit "repository", JVal.str (lit "o/r"))]
    (by decide) (fun s h => by
      have h0 : valueAtPath (JVal.obj [(lit "repository", JVal.str (lit "o/r"))])
          [lit "repository", lit "full_name"] = none := rfl
      rw [h0] at h
      exact absurd h (by simp))

/-! ## When the translation panics (C19) -/

theorem handlePullRequestEvent_eq_none_iff (embed : Embed) (payload : JObj) :
    handlePullRequestEvent embed payload = none ↔
      (mapIndex payload (lit "pull_request")).isObj = false := by
  unfold handlePullRequestEvent
  cases hm : mapIndex payload (lit "pull_request") <;> simp [JVal.isObj]

theorem handleIssuesEvent_eq_none_iff (embed : Embed) (payload : JObj) :
    handleIssuesEvent embed payload = none ↔
      (mapIndex payload (lit "issue")).isObj = false := by
  unfold handleIssuesEvent
  cases hm : mapIndex payload (lit "issue") <;> simp [JVal.isObj]

theorem handleForkEvent_eq_none_iff (embed : Embed) (payload : JObj) :
    handleForkEvent embed payload = none ↔
      (mapIndex payload (lit "forkee")).isObj = false := by
  unfold handleForkEvent
  cases hm : mapIndex payload (lit "forkee") <;> simp [JVal.isObj]

theorem handleIssueCommentEvent_eq_none_iff (embed : Embed) (payload : JObj) :
    handleIssueCommentEvent embed payload = none ↔
      ((mapIndex payload (lit "issue")).isObj = false ∨
        (mapIndex payload (lit "comment")).isObj = false) := by
  unfold handleIssueCommentEvent
  cases hm1 : mapIndex payload (lit "issue") <;>
    cases hm2 : mapIndex payload (lit "comment") <;> simp [JVal.isObj]

theorem handlePRReviewCommentEvent_eq_none_iff (embed : Embed) (payload : JObj) :
    handlePRReviewCommentEvent embed payload = none ↔
      ((mapIndex payload (lit "pull_request")).isObj = false ∨
        (mapIndex payload (lit "comment")).isObj = false) := by
  unfold handlePRReviewCommentEvent
  cases hm1 : mapIndex payload (lit "pull_request") <;>
    cases hm2 : mapIndex payload (lit "comment") <;> simp [JVal.isObj]

theorem handlePRReviewEvent_eq_none_iff (embed : Embed) (payload : JObj) :
    handlePRReviewEvent embed payload = none ↔
      ((mapIndex payload (lit "pull_request")).isObj = false ∨
        (mapIndex payload (lit "review")).isObj = false) := by
  unfold handlePRReviewEvent
  cases hm1 : mapIndex payload (lit "pull_request") <;>
    cases hm2 : mapIndex payload (lit "review") <;> simp [JVal.isObj]
  split_ifs <;> simp

theorem convertToDiscord_eq_none_iff (event : GoString) (payload : JObj) :
    convertToDiscord event payload = none ↔ dispatch event Embed.empty payload = none := by
  unfold convertToDiscord
  cases dispatch event Embed.empty payload <;> simp

/-- C19: `convertToDiscord` completes for every payload when the kind is none
of `push`, `pull_request`, `issues`, `issue_comment`,
`pull_request_review_comment`, `pull_request_review` and `fork` (so for `star`,
`create`, `delete` and every unrecognized kind).  For those seven kinds it
panics exactly when a nested value the handler asserts is not an object:
`pull_request`; `issue`; `issue` or `comment`; `pull_request` or `comment`;
`pull_request` or `review`; `forkee`; and, for `push`, one of the first five
elements of a `commits` array.  Whenever it completes, the message has empty
content and exactly one embed. -/
theorem convertToDiscord_panics_exactly_when (payload : JObj) :
    (∀ event, event ≠ lit "push" → event ≠ lit "pull_request" →
      event ≠ lit "issues" → event ≠ lit "issue_comment" →
      event ≠ lit "pull_request_review_comment" → event ≠ lit "pull_request_review" →
      event ≠ lit "fork" →
      ∃ e, convertToDiscord event payload = some ⟨lit "", [e]⟩) ∧
    (convertToDiscord (lit "pull_request") payload = none ↔
      (mapIndex payload (lit "pull_request")).isObj = false) ∧
    (convertToDiscord (lit "issues") payload = none ↔
      (mapIndex payload (lit "issue")).isObj = false) ∧
    (convertToDiscord (lit "issue_comment") payload = none ↔
      ((mapIndex payload (lit "issue")).isObj = false ∨
        (mapIndex payload (lit "comment")).isObj = false)) ∧
    (convertToDiscord (lit "pull_request_review_comment") payload = none ↔
      ((mapIndex payload (lit "pull_request")).isObj = false ∨
        (mapIndex payload (lit "comment")).isObj = false)) ∧
    (convertToDiscord (lit "pull_request_review") payload = none ↔
      ((mapIndex payload (lit "pull_request")).isObj = false ∨
        (mapIndex payload (lit "review")).isObj = false)) ∧
    (convertToDiscord (lit "fork") payload = none ↔
      (mapIndex payload (lit "forkee")).isObj = false) ∧
    (convertToDiscord (lit "push") payload = none ↔
      ∃ xs, mapIndex payload (lit "commits") = JVal.arr xs ∧
        ∃ x ∈ xs.take 5, x.isObj = false) ∧
    (∀ event msg, convertToDiscord event payload = some msg →
      msg.content = lit "" ∧ ∃ e, msg.embeds = [e]) := by
  refine ⟨?_, ?_, ?_, ?_, ?_, ?_, ?_, ?_, ?_⟩
  · intro event h1 h2 h3 h4 h5 h6 h8
    unfold convertToDiscord
    rcases dispatch_sender_kinds event Embed.empty payload h1 h2 h3 h4 h5 h6 with
      hd | ⟨hf, _⟩ | hd | hd | hd
    · rw [hd]
      exact ⟨_, rfl⟩
    · exact absurd hf h8
    · rw [hd]
      exact ⟨_, rfl⟩
    · rw [hd]
      exact ⟨_, rfl⟩
    · rw [hd]
      exact ⟨_, rfl⟩
  · rw [convertToDiscord_eq_none_iff, dispatch_pull_request,
      handlePullRequestEvent_eq_none_iff]
  · rw [convertToDiscord_eq_none_iff, dispatch_issues, handleIssuesEvent_eq_none_iff]
  · rw [convertToDiscord_eq_none_iff, dispatch_issue_comment,
      handleIssueCommentEvent_eq_none_iff]
  · rw [convertToDiscord_eq_none_iff, dispatch_review_comment,
      handlePRReviewCommentEvent_eq_none_iff]
  · rw [convertToDiscord_eq_none_iff, dispatch_review, handlePRReviewEvent_eq_none_iff]
  · rw [convertToDiscord_eq_none_iff, dispatch_fork, handleForkEvent_eq_none_iff]
  · rw [convertToDiscord_eq_none_iff, dispatch_push, handlePushEvent_eq_none_iff]
  · intro event msg hconv
    obtain ⟨e, _, hmsg⟩ := convertToDiscord_some event payload msg hconv
    rw [hmsg]
    exact ⟨rfl, e, rfl⟩

/-- Witness for C19: on a payload whose `commits` array has a string as its
second element, `delete` and the unrecognized `watch` complete, and a message
that was returned has empty content and one embed. -/
theorem convertToDiscord_panics_exactly_when_witness :
    (∃ e, convertToDiscord (lit "delete")
        [(lit "commits", JVal.arr [JVal.obj [], JVal.str (lit "x")])]
      = some ⟨lit "", [e]⟩) ∧
    ((⟨lit "", [⟨none, some ⟨lit "", lit "", lit ""⟩, some (lit "[] watch event"),
        some (lit ""), none⟩]⟩ : DiscordMessage).content = lit "" ∧
      ∃ e, (⟨lit "", [⟨none, some ⟨lit "", lit "", lit ""⟩, some (lit "[] watch event"),
        some (lit ""), none⟩]⟩ : DiscordMessage).embeds = [e]) :=
  ⟨(convertToDiscord_panics_exactly_when
      [(lit "commits", JVal.arr [JVal.obj [], JVal.str (lit "x")])]).1 (lit "delete")
      (by decide) (by decide) (by decide) (by decide) (by decide) (by decide) (by decide),
   (convertToDiscord_panics_exactly_when
      [(lit "commits", JVal.arr [JVal.obj [], JVal.str (lit "x")])]).2.2.2.2.2.2.2.2
      (lit "watch")
      ⟨lit "", [⟨none, some ⟨lit "", lit "", lit ""⟩, some (lit "[] watch event"),
        some (lit ""), none⟩]⟩ (by decide)⟩

/-! ## A push without commits (C20) -/

/-- C20: for a code-push payload whose `commits` field is absent or is not an
array, the translation completes with the title `[repo:branch] ` (nothing after
the blank) and no description entry; for a payload whose `commits` field is the
empty array, the title is `[repo:branch] 0 new commits` and there is still no
description entry. -/
theorem push_without_commits (payload : JObj) :
    ((∀ xs, mapIndex payload (lit "commits") ≠ JVal.arr xs) →
      ∃ e, convertToDiscord (lit "push") payload = some ⟨lit "", [e]⟩ ∧
        e.title = some (lit "[" ++ getStr payload [lit "repository", lit "full_name"]
          ++ lit ":" ++ pushBranch (getStr payload [lit "ref"]) ++ lit "] ") ∧
        e.description = none) ∧
    (mapIndex payload (lit "commits") = JVal.arr [] →
      ∃ e, convertToDiscord (lit "push") payload = some ⟨lit "", [e]⟩ ∧
        e.title = some (lit "[" ++ getStr payload [lit "repository", lit "full_name"]
          ++ lit ":" ++ pushBranch (getStr payload [lit "ref"]) ++ lit "] "
          ++ lit "0 new commits") ∧
        e.description = none) := by
  have hlit : lit "" = [] := rfl
  have hzero : fmtInt (0 : Int) ++ lit " new commits" = lit "0 new commits" := by
    decide
  constructor
  · intro hno
    unfold convertToDiscord
    rw [dispatch_push]
    unfold handlePushEvent
    cases hc : mapIndex payload (lit "commits") with
    | arr xs => exact absurd hc (hno xs)
    | null => exact ⟨_, rfl, by simp [hlit], rfl⟩
    | bool b => exact ⟨_, rfl, by simp [hlit], rfl⟩
    | num f => exact ⟨_, rfl, by simp [hlit], rfl⟩
    | str t => exact ⟨_, rfl, by simp [hlit], rfl⟩
    | obj m => exact ⟨_, rfl, by simp [hlit], rfl⟩
  · intro hc
    unfold convertToDiscord
    rw [dispatch_push]
    unfold handlePushEvent
    simp only [hc]
    refine ⟨_, rfl, ?_, rfl⟩
    simp [hzero]

/-- Witness for C20: a push to `refs/heads/main` of `o/r` without a `commits`
field, and one with the empty array. -/
theorem push_without_commits_witness :
    (∃ e, convertToDiscord (lit "push")
        [(lit "ref", JVal.str (lit "refs/heads/main")),
         (lit "repository", JVal.obj [(lit "full_name", JVal.str (lit "o/r"))])]
        = some ⟨lit "", [e]⟩ ∧
      e.title = some (lit "[o/r:main] ") ∧ e.description = none) ∧
    (∃ e, convertToDiscord (lit "push")
        [(lit "ref", JVal.str (lit "refs/heads/main")),
         (lit "repository", JVal.obj [(lit "full_name", JVal.str (lit "o/r"))]),
         (lit "commits", JVal.arr [])]
        = some ⟨lit "", [e]⟩ ∧
      e.title = some (lit "[o/r:main] 0 new commits") ∧ e.description = none) := by
  constructor
  · obtain ⟨e, he, ht, hd⟩ := (push_without_commits
      [(lit "ref", JVal.str (lit "refs/heads/main")),
       (lit "repository", JVal.obj [(lit "full_name", JVal.str (lit "o/r"))])]).1
      (fun xs h => by
        have h0 : mapIndex [(lit "ref", JVal.str (lit "refs/heads/main")),
            (lit "repository", JVal.obj [(lit "full_name", JVal.str (lit "o/r"))])]
            (lit "commits") = JVal.null := rfl
        rw [h0] at h
        exact absurd h (by simp))
    refine ⟨e, he, ?_, hd⟩
    rw [ht]
    decide
  · obtain ⟨e, he, ht, hd⟩ := (push_without_commits
      [(lit "ref", JVal.str (lit "refs/heads/main")),
       (lit "repository", JVal.obj [(lit "full_name", JVal.str (lit "o/r"))]),
       (lit "commits", JVal.arr [])]).2 rfl
    refine ⟨e, he, ?_, hd⟩
    rw [ht]
    decide

end GithubWebhookDiscord
